import Mathlib

/-!
Verification of the request segmentation / oracle orchestration / intent
fusion pipeline implemented in `src/services/nlp.js`.

Strings are modelled as `List Char` (`Str`).  Each definition below is a
shallow embedding of the JavaScript function of the same name; JavaScript
regular-expression operations are embedded by their leftmost-match,
greedy-with-backtracking semantics, specialised to the concrete patterns
appearing in the source.  External facilities (the Groq oracle and the
runtime's `JSON.parse`) are parameters of the embedding, so that theorems
quantify over every possible behaviour of those facilities.
-/

namespace FlowState

abbrev Str := List Char

/-- JavaScript whitespace (the ASCII part relevant to `\s`, `trim`). -/
def jsWs (c : Char) : Bool :=
  c = ' ' ∨ c = '\t' ∨ c = '\n' ∨ c = '\r' ∨ c = '\x0b' ∨ c = '\x0c'

/-- JavaScript `String.prototype.trim` : drop whitespace at both ends. -/
def jsTrim (l : Str) : Str :=
  ((l.dropWhile jsWs).reverse.dropWhile jsWs).reverse

/-- Boolean prefix test on character lists. -/
def isPrefixB : Str → Str → Bool
  | [], _ => true
  | _ :: _, [] => false
  | a :: as, b :: bs => a = b && isPrefixB as bs

/-- Boolean substring test (JS `String.prototype.includes`). -/
def containsSub (needle : Str) : Str → Bool
  | [] => needle.isEmpty
  | c :: rest => isPrefixB needle (c :: rest) || containsSub needle rest

/-- ASCII lower-casing of a single character (JS `toLowerCase` on ASCII). -/
def lcChar (c : Char) : Char :=
  if 'A' ≤ c ∧ c ≤ 'Z' then Char.ofNat (c.toNat + 32) else c

/-- ASCII upper-casing of a single character (JS `toUpperCase` on ASCII). -/
def ucChar (c : Char) : Char :=
  if 'a' ≤ c ∧ c ≤ 'z' then Char.ofNat (c.toNat - 32) else c

def lcStr (l : Str) : Str := l.map lcChar

def ucStr (l : Str) : Str := l.map ucChar

/-- Case-insensitive substring test (JS `/pat/i.test(s)` for a literal pattern). -/
def containsCI (needle hay : Str) : Bool :=
  containsSub (lcStr needle) (lcStr hay)

/-- Decimal representation of a natural number, as a character list. -/
def natToStr (n : Nat) : Str := (toString n).data

/--
`estimateTokens` from `src/services/nlp.js` (lines 30-33):
`Math.ceil(text.length / 4)`, with 0 for empty input.
-/
def estimateTokens (text : Str) : Nat := (text.length + 3) / 4

/-!
### Sentence decomposition

`text.match(/[^.!?]+[.!?]+/g)`: the global matches are the consecutive
(non-terminator run)(terminator run) groups of the text; a leading
terminator run and a trailing unterminated run are not part of any match.
-/

def isTerm (c : Char) : Bool := c = '.' ∨ c = '!' ∨ c = '?'

/-- State machine producing the global matches of `/[^.!?]+[.!?]+/`.
`curRev` is the reversed current partial match; `inTerm` records whether
the partial match has already consumed at least one terminator. -/
def sentGo (curRev : Str) (inTerm : Bool) : Str → List Str
  | [] => if inTerm then [curRev.reverse] else []
  | c :: rest =>
    if isTerm c then
      if curRev.isEmpty then sentGo [] false rest
      else sentGo (c :: curRev) true rest
    else
      if inTerm then curRev.reverse :: sentGo [c] false rest
      else sentGo (c :: curRev) false rest

/-- `text.match(/[^.!?]+[.!?]+/g) || [text]` (nlp.js line 52). -/
def sentencesOf (l : Str) : List Str :=
  let s := sentGo [] false l
  if s.isEmpty then [l] else s

/-!
### Chunk splitter (`splitTextIntoChunks`, nlp.js lines 44-114)
-/

/-- Character-tier forced split (nlp.js lines 84-87): slices of
`maxChars` characters.  The JavaScript loop does not terminate when
`maxChars = 0`; that case is unreachable for the positive ceilings the
claims quantify over, and the fuel (initialised to more than the input
length) is never exhausted when `maxChars ≥ 1`. -/
def charChunksF (maxChars : Nat) : Nat → Str → List Str
  | 0, _ => []
  | _, [] => []
  | fuel + 1, c :: rest =>
    (c :: rest).take maxChars :: charChunksF maxChars fuel ((c :: rest).drop maxChars)

def charChunks (maxChars : Nat) (l : Str) : List Str :=
  charChunksF maxChars (l.length + 1) l

/-- One iteration of the line-tier loop (nlp.js lines 73-95).
State: chunks accumulated so far, current `lineChunk`. -/
def lineStep (maxTokensPerChunk : Nat) (st : List Str × Str) (line : Str) :
    List Str × Str :=
  let chunks := st.1
  let lineChunk := st.2
  let lineTokens := estimateTokens line
  let lineChunkTokens := estimateTokens lineChunk
  if lineChunkTokens + lineTokens > maxTokensPerChunk then
    let chunks := if (jsTrim lineChunk).isEmpty then chunks else chunks ++ [jsTrim lineChunk]
    if lineTokens > maxTokensPerChunk then
      (chunks ++ (charChunks (maxTokensPerChunk * 4) line).map jsTrim, [])
    else
      (chunks, line)
  else
    (chunks, lineChunk ++ (if lineChunk.isEmpty then [] else ['\n']) ++ line)

/-- One iteration of the sentence-tier loop (nlp.js lines 56-106).
State: chunks accumulated so far, current `currentChunk`. -/
def sentStep (maxTokensPerChunk : Nat) (st : List Str × Str) (sentence : Str) :
    List Str × Str :=
  let chunks := st.1
  let cur := st.2
  let sentenceTokens := estimateTokens sentence
  let currentTokens := estimateTokens cur
  if currentTokens + sentenceTokens > maxTokensPerChunk then
    let st1 : List Str × Str :=
      if (jsTrim cur).isEmpty then (chunks, cur) else (chunks ++ [jsTrim cur], [])
    if sentenceTokens > maxTokensPerChunk then
      let st2 := (sentence.splitOn '\n').foldl (lineStep maxTokensPerChunk) (st1.1, [])
      if (jsTrim st2.2).isEmpty then (st2.1, st1.2) else (st2.1, st2.2)
    else
      (st1.1, sentence)
  else
    (chunks, cur ++ sentence)

/-- `splitTextIntoChunks` (nlp.js lines 44-114). -/
def splitTextIntoChunks (text : Str) (maxTokensPerChunk : Nat) : List Str :=
  if text.isEmpty ∨ estimateTokens text ≤ maxTokensPerChunk then [text]
  else
    let st := (sentencesOf text).foldl (sentStep maxTokensPerChunk) ([], [])
    let chunks := if (jsTrim st.2).isEmpty then st.1 else st.1 ++ [jsTrim st.2]
    if chunks.isEmpty then [text] else chunks

/-!
### Response sanitizer (`repairTruncatedJson`, `cleanJsonResponse`,
nlp.js lines 123-178)
-/

/-- Count occurrences of a character, as `(s.match(/c/g) || []).length`. -/
def countCh (c : Char) (l : Str) : Nat := l.count c

/-- Given the text following a comma, decide whether the regex
`,(\s*[}\]])` completes there: skip whitespace, then require `}` or `]`.
Returns the closing character and the remainder after it. -/
def dropWsThenCloser : Str → Option (Char × Str)
  | [] => none
  | c :: rest =>
    if c = '}' ∨ c = ']' then some (c, rest)
    else if jsWs c then dropWsThenCloser rest
    else none

/-- `repaired.replace(/,(\s*[}\]])/g, '$1')` (nlp.js line 143): a
left-to-right non-overlapping scan deleting each comma (and the
whitespace after it) that precedes a closing brace/bracket.  Fuelled
recursion; the fuel (more than the input length) is never exhausted. -/
def removeTrailingCommasF : Nat → Str → Str
  | 0, l => l
  | _ + 1, [] => []
  | fuel + 1, c :: rest =>
    if c = ',' then
      match dropWsThenCloser rest with
      | some (cl, rest2) => cl :: removeTrailingCommasF fuel rest2
      | none => ',' :: removeTrailingCommasF fuel rest
    else c :: removeTrailingCommasF fuel rest

def removeTrailingCommas (l : Str) : Str := removeTrailingCommasF (l.length + 1) l

/-- `repairTruncatedJson` (nlp.js lines 123-146). -/
def repairTruncatedJson (jsonStr : Str) : Str :=
  let repaired := jsTrim jsonStr
  let openBraces := countCh '\x7b' repaired
  let closeBraces := countCh '\x7d' repaired
  let openBrackets := countCh '[' repaired
  let closeBrackets := countCh ']' repaired
  let repaired := repaired ++ List.replicate (openBrackets - closeBrackets) ']'
  let repaired := repaired ++ List.replicate (openBraces - closeBraces) '\x7d'
  removeTrailingCommas repaired

/-- Boolean suffix test. -/
def endsWithB (pat l : Str) : Bool := isPrefixB pat.reverse l.reverse

/-- Case-insensitive prefix test. -/
def isPrefixCI (pat l : Str) : Bool := isPrefixB (lcStr pat) (lcStr l)

/-- `replace(/^pat\s*/i, '')` for a literal pattern. -/
def stripCIPrefixWs (pat l : Str) : Str :=
  if isPrefixCI pat l then (l.drop pat.length).dropWhile jsWs else l

/-- `replace(/^pat\s*/, '')` for a literal pattern (case-sensitive). -/
def stripPrefixWs (pat l : Str) : Str :=
  if isPrefixB pat l then (l.drop pat.length).dropWhile jsWs else l

/-- `replace(/\s*```$/, '')`: if the text ends with three backticks,
remove them together with the maximal whitespace run before them. -/
def stripSuffixFence (l : Str) : Str :=
  if endsWithB "```".data l then
    ((l.take (l.length - 3)).reverse.dropWhile jsWs).reverse
  else l

/-- `String.prototype.indexOf` for a single character. -/
def idxOf (c : Char) : Str → Option Nat
  | [] => none
  | d :: rest =>
    if d = c then some 0
    else match idxOf c rest with
      | some k => some (k + 1)
      | none => none

/-- `String.prototype.lastIndexOf` for a single character. -/
def lastIdxOf (c : Char) (l : Str) : Option Nat :=
  match idxOf c l.reverse with
  | some k => some (l.length - 1 - k)
  | none => none

/-- `cleanJsonResponse` (nlp.js lines 155-178). -/
def cleanJsonResponse (content : Str) : Str :=
  if content.isEmpty then "\x7b\x7d".data
  else
    let cleaned := jsTrim content
    let cleaned := stripCIPrefixWs "```json".data cleaned
    let cleaned := stripPrefixWs "```".data cleaned
    let cleaned := stripSuffixFence cleaned
    let cleaned := jsTrim cleaned
    match idxOf '\x7b' cleaned, lastIdxOf '\x7d' cleaned with
    | some i, some j => if i < j then (cleaned.drop i).take (j + 1 - i) else cleaned
    | _, _ => cleaned

/-!
### Data model

An `Intent` is the JavaScript object shape produced and consumed by the
pipeline.  Absent JavaScript properties are modelled by `none` / `[]`.
-/

structure TaskItem where
  title : Str
  description : Str := []
  priority : Str := []
  assignee : Option Str := none
deriving DecidableEq

structure NoteItem where
  title : Str
  body : Str := []
  tags : List Str := []
deriving DecidableEq

/-- Entity values appearing in the source: strings, or the numeric-operand
list of the `math` action. -/
inductive EVal where
  | s (v : Str)
  | nums (v : List Nat)
deriving DecidableEq

structure Intent where
  mode : Option Str := none
  action : Option Str := none
  entities : List (Str × EVal) := []
  tasks : List TaskItem := []
  notes : List NoteItem := []
  query : Option Str := none
  reply_hint : Option Str := none
  message : Option Str := none
  warning : Option Str := none
  queue : List TaskItem := []
  fallback : Bool := false
  metaChunked : Bool := false
  metaChunkCount : Nat := 0
  partialProcessing : Bool := false
deriving DecidableEq

/-- The closed action enumeration from the system prompt whitelist. -/
def actionEnum : List Str :=
  ["create_task".data, "list_tasks".data, "update_priority".data,
   "complete_task".data, "delete_task".data, "create_note".data,
   "list_notes".data, "focus".data, "show_urgent".data, "math".data,
   "small_talk".data, "help".data, "unknown".data]

/-!
### Regex machinery for the fallback classifier
(`regexFallbackParser`, nlp.js lines 580-687)
-/

/-- `b` occurs in `l` before the first newline (used for `a.*b` where `.`
does not match line breaks and `b` contains no newline). -/
def lineHas (b l : Str) : Bool := containsSub b (l.takeWhile (fun c => ¬ (c = '\n')))

/-- `/a.*b/.test(l)`: an occurrence of `a` followed, with no intervening
newline, by an occurrence of `b`. -/
def gapMatchL (a b : Str) : Str → Bool
  | [] => false
  | c :: rest =>
    (isPrefixB a (c :: rest) && lineHas b ((c :: rest).drop a.length)) || gapMatchL a b rest

/-- `/a.*b/i.test(text)` for literal `a`, `b`. -/
def gapCI (a b text : Str) : Bool := gapMatchL (lcStr a) (lcStr b) (lcStr text)

def isWordChar (c : Char) : Bool :=
  ('a' ≤ c ∧ c ≤ 'z') ∨ ('A' ≤ c ∧ c ≤ 'Z') ∨ ('0' ≤ c ∧ c ≤ '9') ∨ c = '_'

/-- `needle` matches at the head of `l` with word boundaries on both
sides (`prev` is the character before this position, if any). -/
def wbAt (needle l : Str) (prev : Option Char) : Bool :=
  isPrefixB needle l &&
  (match prev with | none => true | some p => ¬ isWordChar p) &&
  (match (l.drop needle.length).head? with | none => true | some n => ¬ isWordChar n)

def wbContainsAux (needle : Str) (prev : Option Char) : Str → Bool
  | [] => false
  | c :: rest => wbAt needle (c :: rest) prev || wbContainsAux needle (some c) rest

/-- `/\bneedle\b/i.test(text)` for a literal word. -/
def wbContainsCI (needle text : Str) : Bool := wbContainsAux (lcStr needle) none (lcStr text)

def digitB (c : Char) : Bool := '0' ≤ c ∧ c ≤ '9'

def isOp (c : Char) : Bool := c = '+' ∨ c = '-' ∨ c = '*' ∨ c = '/'

/-- `/^\s*\d+\s*[\+\-\*\/]\s*\d+/.test(text)` (nlp.js line 640). -/
def mathAnchoredTest (l : Str) : Bool :=
  let l1 := l.dropWhile jsWs
  let ds := l1.takeWhile digitB
  if ds.isEmpty then false
  else
    match (l1.drop ds.length).dropWhile jsWs with
    | op :: rest =>
      isOp op &&
        (match rest.dropWhile jsWs with
         | d :: _ => digitB d
         | [] => false)
    | [] => false

/-- Decimal digits to a natural number (JS `parseInt` on a digit run). -/
def strToNat (l : Str) : Nat := l.foldl (fun n c => n * 10 + (c.toNat - 48)) 0

/-- Leftmost match of `/(\d+)\s*([\+\-\*\/])\s*(\d+)/` (nlp.js line 642). -/
def mathScan : Str → Option (Nat × Char × Nat)
  | [] => none
  | c :: rest =>
    (if digitB c then
      let ds := (c :: rest).takeWhile digitB
      match ((c :: rest).drop ds.length).dropWhile jsWs with
      | op :: r2 =>
        if isOp op then
          let ds2 := (r2.dropWhile jsWs).takeWhile digitB
          if ds2.isEmpty then none else some (strToNat ds, op, strToNat ds2)
        else none
      | [] => none
     else none).orElse (fun _ => mathScan rest)

def opName (op : Char) : Str :=
  if op = '+' then "addition".data
  else if op = '-' then "subtraction".data
  else if op = '*' then "multiplication".data
  else "division".data

/-- Split off the last non-newline character: `l = pre ++ c :: post` with
`c ≠ '\n'` and `post` all newlines. -/
def splitLastNonNl : Str → Option (Str × Char × Str)
  | [] => none
  | c :: rest =>
    match splitLastNonNl rest with
    | some (p, d, s) => some (c :: p, d, s)
    | none => if c = '\n' then none else some ([], c, rest)

/-- Greedy `\s*([^\n]+)` with JS backtracking, applied to `l`; returns the
consumed text and the remainder, or `none` when `[^\n]+` cannot match. -/
def wsLinePart (l : Str) : Option (Str × Str) :=
  let r := l.takeWhile jsWs
  let k := l.drop r.length
  match k with
  | _ :: _ =>
    some (r ++ k.takeWhile (fun c => ¬ (c = '\n')), k.dropWhile (fun c => ¬ (c = '\n')))
  | [] =>
    match splitLastNonNl r with
    | some (pre, c, post) => some (pre ++ [c], post)
    | none => none

/-- Greedy `\s+(.+)` with JS backtracking: the captured group, applied to
the text following a matched keyword (`finish`/`remove` extraction,
nlp.js lines 596, 603). -/
def wsPlusGroup (l : Str) : Option Str :=
  let r := l.takeWhile jsWs
  if r.isEmpty then none
  else
    match l.drop r.length with
    | _ :: _ => some ((l.drop r.length).takeWhile (fun x => ¬ (x = '\n')))
    | [] =>
      match splitLastNonNl r with
      | some (pre, c, post) =>
        if pre.isEmpty then none else some (c :: post.takeWhile (fun x => ¬ (x = '\n')))
      | none => none

/-- Global matches of `/\d+[\)\.]\s*([^\n]+)/g` (nlp.js line 665),
full-match strings in order.  Fuelled scan; fuel is never exhausted. -/
def scanNumberedF : Nat → Str → List Str
  | 0, _ => []
  | _ + 1, [] => []
  | fuel + 1, c :: rest =>
    if digitB c then
      let ds := (c :: rest).takeWhile digitB
      match (c :: rest).drop ds.length with
      | d :: rest2 =>
        if d = ')' ∨ d = '.' then
          match wsLinePart rest2 with
          | some (consumed, remainder) => (ds ++ d :: consumed) :: scanNumberedF fuel remainder
          | none => scanNumberedF fuel rest
        else scanNumberedF fuel rest
      | [] => scanNumberedF fuel rest
    else scanNumberedF fuel rest

def scanNumbered (l : Str) : List Str := scanNumberedF (l.length + 1) l

/-- `match.replace(/^\d+\)\s*/, '')` (nlp.js line 669). -/
def stripNumParen (m : Str) : Str :=
  let ds := m.takeWhile digitB
  if ds.isEmpty then m
  else
    match m.drop ds.length with
    | ')' :: r => r.dropWhile jsWs
    | _ => m

/-!
### Fallback classifier (`regexFallbackParser`, nlp.js lines 580-687)

The source's `complete`/`delete` branches evaluate `match[1].trim()` where
`match` comes from `/complete|done|finish\s+(.+)/i` (resp.
`/delete|remove\s+(.+)/i`): when the leftmost alternative matched is the
bare keyword, capture group 1 did not participate, `match[1]` is
`undefined` and the `.trim()` call throws a `TypeError`.  The classifier
is therefore embedded as `Except`-valued.
-/

/-- Leftmost match of `/complete|done|finish\s+(.+)/i`:
`some none` = a bare `complete`/`done` alternative won (group 1 absent),
`some (some g)` = the `finish\s+(.+)` alternative won with group `g`. -/
def completeMatch : Str → Option (Option Str)
  | [] => none
  | c :: rest =>
    if isPrefixCI "complete".data (c :: rest) then some none
    else if isPrefixCI "done".data (c :: rest) then some none
    else if isPrefixCI "finish".data (c :: rest) then
      match wsPlusGroup ((c :: rest).drop 6) with
      | some g => some (some g)
      | none => completeMatch rest
    else completeMatch rest

/-- Leftmost match of `/delete|remove\s+(.+)/i` (same shape). -/
def deleteMatch : Str → Option (Option Str)
  | [] => none
  | c :: rest =>
    if isPrefixCI "delete".data (c :: rest) then some none
    else if isPrefixCI "remove".data (c :: rest) then
      match wsPlusGroup ((c :: rest).drop 6) with
      | some g => some (some g)
      | none => deleteMatch rest
    else deleteMatch rest

/-- `/complete|done|finish|mark.*done/i.test(text)` (nlp.js line 593). -/
def guardComplete (t : Str) : Bool :=
  containsCI "complete".data t || containsCI "done".data t ||
  containsCI "finish".data t || gapCI "mark".data "done".data t

/-- `/delete|remove/i.test(text)` (line 601). -/
def guardDelete (t : Str) : Bool :=
  containsCI "delete".data t || containsCI "remove".data t

/-- `/change.*priority|make.*urgent|make.*high|make.*low|update.*priority/i` (line 608). -/
def guardPriority (t : Str) : Bool :=
  gapCI "change".data "priority".data t || gapCI "make".data "urgent".data t ||
  gapCI "make".data "high".data t || gapCI "make".data "low".data t ||
  gapCI "update".data "priority".data t

/-- `/show|list|display.*tasks/i` (line 617). -/
def guardList (t : Str) : Bool :=
  containsCI "show".data t || containsCI "list".data t ||
  gapCI "display".data "tasks".data t

/-- `/note:/i.test(text) || /remember|save this|meeting/i.test(text)` (line 624). -/
def guardNote (t : Str) : Bool :=
  containsCI "note:".data t || containsCI "remember".data t ||
  containsCI "save this".data t || containsCI "meeting".data t

/-- `/focus|pomodoro/i` (line 630). -/
def guardFocus (t : Str) : Bool :=
  containsCI "focus".data t || containsCI "pomodoro".data t

/-- `/what.*urgent|show urgent/i` (line 635). -/
def guardUrgent (t : Str) : Bool :=
  gapCI "what".data "urgent".data t || containsCI "show urgent".data t

/-- `/^(hi|hello|hey|what time|what day|help)/i` (line 655). -/
def guardGreeting (t : Str) : Bool :=
  isPrefixCI "hi".data t || isPrefixCI "hello".data t || isPrefixCI "hey".data t ||
  isPrefixCI "what time".data t || isPrefixCI "what day".data t ||
  isPrefixCI "help".data t

/-- No keyword/pattern rule of the fallback classifier matches `t`
(the classifier reaches its default create-task branch). -/
def noRuleMatch (t : Str) : Bool :=
  !(guardComplete t) && !(guardDelete t) && !(guardPriority t) &&
  !(guardList t) && !(guardNote t) && !(guardFocus t) &&
  !(guardUrgent t) && !(mathAnchoredTest t) && !(guardGreeting t)

/-- Message of the `TypeError` thrown by `undefined.trim()`. -/
def tyErrTrim : Str :=
  "Cannot read properties of undefined (reading \x27trim\x27)".data

/-- `regexFallbackParser` (nlp.js lines 580-687). -/
def regexFallbackParser (text : Str) : Except Str Intent :=
  let base : Intent :=
    { mode := some "auto".data, action := some "unknown".data,
      tasks := [], entities := [], query := some text, fallback := true }
  if guardComplete text then
    match completeMatch text with
    | some (some g) =>
      .ok { base with
              action := some "complete_task".data,
              entities := [("task_ref".data, EVal.s (jsTrim g))] }
    | some none => .error tyErrTrim
    | none => .ok { base with action := some "complete_task".data }
  else if guardDelete text then
    match deleteMatch text with
    | some (some g) =>
      .ok { base with
              action := some "delete_task".data,
              entities := [("task_ref".data, EVal.s (jsTrim g))] }
    | some none => .error tyErrTrim
    | none => .ok { base with action := some "delete_task".data }
  else if guardPriority text then
    let p : Str :=
      if wbContainsCI "high".data text || wbContainsCI "urgent".data text then "high".data
      else if wbContainsCI "low".data text then "low".data
      else "medium".data
    .ok { base with
            action := some "update_priority".data,
            entities := [("priority".data, EVal.s p)] }
  else if guardList text then
    let ents : List (Str × EVal) :=
      if containsCI "sort".data text || gapCI "arrange".data "priority".data text then
        [("sortBy".data, EVal.s "priority".data)]
      else []
    .ok { base with action := some "list_tasks".data, entities := ents }
  else if guardNote text then
    .ok { base with
            action := some "create_note".data,
            notes := [{ title := text.take 50, body := text, tags := [] }] }
  else if guardFocus text then
    .ok { base with action := some "focus".data }
  else if guardUrgent text then
    .ok { base with action := some "show_urgent".data }
  else if mathAnchoredTest text then
    match mathScan text with
    | some (a, op, b) =>
      .ok { base with
              action := some "math".data,
              entities := [("numbers".data, EVal.nums [a, b]),
                           ("operation".data, EVal.s (opName op))] }
    | none => .ok { base with action := some "math".data }
  else if guardGreeting text then
    if containsCI "help".data text then .ok { base with action := some "help".data }
    else .ok { base with action := some "small_talk".data }
  else
    let mtchs := scanNumbered text
    if mtchs.isEmpty then
      let lines := (text.splitOn '\n').filter (fun line => ¬ (jsTrim line).isEmpty)
      .ok { base with
              action := some "create_task".data,
              tasks := (lines.take 50).map
                (fun line => { title := jsTrim line, description := [], priority := "medium".data }) }
    else
      .ok { base with
              action := some "create_task".data,
              tasks := mtchs.map
                (fun m => { title := jsTrim (stripNumParen m), description := [], priority := "medium".data }) }

/-!
### Intent fusion (`mergeIntents`, nlp.js lines 372-465)
-/

/-- The `actionPriority` table (nlp.js lines 382-396), with the JS lookup
default `actionPriority[action] || 0`. -/
def actionPriority (a : Str) : Int :=
  if a = "delete_task".data then 12
  else if a = "complete_task".data then 11
  else if a = "update_priority".data then 10
  else if a = "create_task".data then 9
  else if a = "create_note".data then 8
  else if a = "show_urgent".data then 7
  else if a = "focus".data then 6
  else if a = "list_tasks".data then 5
  else if a = "list_notes".data then 4
  else if a = "math".data then 3
  else if a = "help".data then 2
  else if a = "small_talk".data then 1
  else 0

/-- `intent.action || 'unknown'` (nlp.js line 402). -/
def actionOrUnknown (i : Intent) : Str :=
  match i.action with
  | some a => if a.isEmpty then "unknown".data else a
  | none => "unknown".data

/-- One iteration of the primary-action recomputation loop
(nlp.js lines 401-408). -/
def selectStep (acc : Int × Option Str) (intent : Intent) : Int × Option Str :=
  let action := actionOrUnknown intent
  let p := actionPriority action
  if p > acc.1 then (p, some action) else acc

/-- The primary-action recomputation loop (nlp.js lines 399-409):
starting from `maxPriority = -1`, the first intent whose action has a
strictly greater priority wins. -/
def selectPrimary (intents : List Intent) : Option Str :=
  (intents.foldl selectStep (-1, none)).2

/-- JS object spread `{...a, ...b}` on entity maps: keys of `b` override. -/
def overrideMerge (a b : List (Str × EVal)) : List (Str × EVal) :=
  a.filter (fun p => ¬ b.any (fun q => q.1 = p.1)) ++ b

/-- One iteration of the fusion loop (nlp.js lines 425-455), written
field-wise: the loop body's sequential mutations touch disjoint fields,
so their net effect is this simultaneous update.  `if (intent.query)`
and `if (intent.reply_hint)` skip absent or empty strings; the explicit
`sortBy` reassignment (lines 452-454) re-stores a value the entity
spread has already stored and is a no-op. -/
def mergeStep (m : Intent) (intent : Intent) : Intent :=
  { m with
      tasks := m.tasks ++ intent.tasks,
      notes := m.notes ++ intent.notes,
      query :=
        (match intent.query with
         | some q =>
           if q.isEmpty then m.query
           else some ((m.query.getD []) ++
             (if (m.query.getD []).isEmpty then [] else [' ']) ++ q)
         | none => m.query),
      entities := overrideMerge m.entities intent.entities,
      reply_hint :=
        (match intent.reply_hint with
         | some r => if r.isEmpty then m.reply_hint else some r
         | none => m.reply_hint) }

/-- The overflow warning string (nlp.js line 459). -/
def warnMsg (n : Nat) : Str :=
  "This is a long request with ".data ++ natToStr n ++ " tasks. Processing in batches.".data

/-- `mergeIntents` (nlp.js lines 372-465). -/
def mergeIntents (intents : List Intent) (primaryAction : Option Str) : Intent :=
  match intents with
  | [] => { action := some "unknown".data, message := some "No intents parsed".data }
  | [i] => i
  | i0 :: _ :: _ =>
    let primary :=
      match primaryAction with
      | some a => if a.isEmpty then selectPrimary intents else some a
      | none => selectPrimary intents
    let base : Intent :=
      { mode := some (match i0.mode with
          | some m => if m.isEmpty then "auto".data else m
          | none => "auto".data),
        action := primary,
        tasks := [], notes := [], entities := [],
        metaChunked := true, metaChunkCount := intents.length,
        query := some [] }
    let merged := intents.foldl mergeStep base
    if merged.tasks.length > 20 then
      { merged with
          warning := some (warnMsg merged.tasks.length),
          queue := merged.tasks.drop 20,
          tasks := merged.tasks.take 20 }
    else merged

/-!
### Call gateway (`safeGroqCall`, nlp.js lines 188-218)

The oracle and the runtime's `JSON.parse` are parameters: an `Oracle`
maps (system prompt, user prompt) to either response content or a thrown
error message; a `JsonParse` maps a string to either a parsed
intent-shaped object or a thrown error message.
-/

def MAX_INPUT_TOKENS_PER_CALL : Nat := 6000

def MAX_OUTPUT_TOKENS_PER_CALL : Nat := 2000

def MAX_TOTAL_TOKENS_PER_CALL : Nat := 8000

abbrev Oracle := Str → Str → Except Str Str

abbrev JsonParse := Str → Except Str Intent

/-- The pre-flight budget error message (nlp.js line 199). -/
def budgetErrorMsg (n : Nat) : Str :=
  "Input tokens (".data ++ natToStr n ++
  ") exceed MAX_INPUT_TOKENS_PER_CALL (".data ++
  natToStr MAX_INPUT_TOKENS_PER_CALL ++ "). Use chunking instead.".data

def tokenLimitMsg : Str := "Token limit exceeded. Try with smaller input.".data

/-- The `try`/`catch` around the external call (nlp.js lines 202-217):
an oracle error whose message mentions `token` is rewrapped. -/
def oracleDispatch (oracle : Oracle) (systemPrompt userPrompt : Str) : Except Str Str :=
  match oracle systemPrompt userPrompt with
  | .ok r => .ok r
  | .error e => if containsSub "token".data e then .error tokenLimitMsg else .error e

/-- `safeGroqCall` (nlp.js lines 188-218). -/
def safeGroqCall (oracle : Oracle) (systemPrompt userPrompt : Str) : Except Str Str :=
  if estimateTokens (systemPrompt ++ userPrompt) > MAX_INPUT_TOKENS_PER_CALL then
    .error (budgetErrorMsg (estimateTokens (systemPrompt ++ userPrompt)))
  else oracleDispatch oracle systemPrompt userPrompt

/-!
### System prompts and the orchestrators
(`parseLongInput` nlp.js lines 229-362, `parseIntent` lines 475-555)
-/

/-- `modeContext` (nlp.js lines 230, 482). -/
def modeContext (mode : Option Str) : Str :=
  match mode with
  | none => []
  | some m =>
    if m.isEmpty then []
    else "\nCurrent mode is ".data ++ ucStr m ++ "; prefer ".data ++ m ++ "-related actions.".data

def longSystemPromptA : Str :=
  ("You are a task management assistant. Parse user requests into structured intents.\n\nSTRICT ACTION WHITELIST - ONLY return one of these actions:\ncreate_task, list_tasks, update_priority, complete_task, delete_task, create_note, list_notes, focus, show_urgent, math, small_talk, help, unknown\n").data

def longSystemPromptB : Str :=
  ("\n\nReturn ONLY valid JSON, no markdown, no code blocks, no explanations.\nFormat:\n\x7b\n  \"mode\": \"auto\" | \"tasks\" | \"notes\" | \"focus\" | \"chat\",\n  \"action\": \"create_task\" | \"list_tasks\" | \"update_priority\" | \"complete_task\" | \"delete_task\" | \"create_note\" | \"list_notes\" | \"focus\" | \"show_urgent\" | \"math\" | \"small_talk\" | \"help\" | \"unknown\",\n  \"entities\": \x7b\n    \"task_ref\": \"title text or number\",\n    \"person\": \"assignee\",\n    \"priority\": \"high|medium|low\",\n    \"sortBy\": \"priority\"\n  \x7d,\n  \"tasks\": [\x7b \"title\": \"...\", \"description\": \"...\", \"priority\": \"high|medium|low\", \"assignee\": \"name or null\" \x7d],\n  \"query\": \"original user message\"\n\x7d\n\nIf user requests multiple tasks, include all in the \"tasks\" array.").data

/-- System prompt of `parseLongInput` (nlp.js lines 232-253). -/
def longSystemPrompt (mode : Option Str) : Str :=
  longSystemPromptA ++ modeContext mode ++ longSystemPromptB

def intentSystemPromptA : Str :=
  ("You are a task management assistant. Parse user requests into structured intents.\n\nSTRICT ACTION WHITELIST - ONLY return one of these actions:\ncreate_task, list_tasks, update_priority, complete_task, delete_task, create_note, list_notes, focus, show_urgent, math, small_talk, help, unknown\n\nRULES:\n- \"make X urgent/high/low\" OR \"change priority\" → action=\"update_priority\" with entities.priority and entities.task_ref\n- \"mark as done/complete X\" → action=\"complete_task\" with entities.task_ref\n- \"delete/remove X\" → action=\"delete_task\" with entities.task_ref\n- \"re arrange the list based on tasks priority\" → action=\"list_tasks\" with entities.sortBy=\"priority\"\n- \"what time/day\" or greetings → action=\"small_talk\" with reply_hint\n- \"add 5094 + 3776\" → action=\"math\" with entities.numbers and entities.operation\n- If ambiguous or unsupported → action=\"unknown\"\n").data

def intentSystemPromptB : Str :=
  ("\n\nReturn ONLY valid JSON, no markdown, no code blocks, no explanations.\nFormat:\n\x7b\n  \"mode\": \"auto\" | \"tasks\" | \"notes\" | \"focus\" | \"chat\",\n  \"action\": \"create_task\" | \"list_tasks\" | \"update_priority\" | \"complete_task\" | \"delete_task\" | \"create_note\" | \"list_notes\" | \"focus\" | \"show_urgent\" | \"math\" | \"small_talk\" | \"help\" | \"unknown\",\n  \"entities\": \x7b\n    \"title\": \"task title text\",\n    \"task_ref\": \"title text or number like 1,2,3 from last list\",\n    \"person\": \"assignee name\",\n    \"project\": \"project name\",\n    \"priority\": \"high\" | \"medium\" | \"low\",\n    \"sortBy\": \"priority\",\n    \"datetime\": \"time reference\",\n    \"numbers\": [5094, 3776],\n    \"operation\": \"addition\" | \"subtraction\" | \"multiplication\" | \"division\"\n  \x7d,\n  \"tasks\": [\x7b \"title\": \"...\", \"description\": \"...\", \"priority\": \"high|medium|low\", \"assignee\": \"name or null\" \x7d],\n  \"notes\": [\x7b \"title\": \"...\", \"body\": \"...\", \"tags\": [] \x7d],\n  \"reply_hint\": \"short reply under 60 words for small_talk\",\n  \"query\": \"original user message\"\n\x7d").data

/-- System prompt of `parseIntent` (nlp.js lines 484-519). -/
def intentSystemPrompt (mode : Option Str) : Str :=
  intentSystemPromptA ++ modeContext mode ++ intentSystemPromptB

def jsonEmptyStr : Str := "\x7b\x7d".data

/-- `intent.query = intent.query || chunk` (nlp.js lines 266, 309, 323). -/
def setQueryDefault (i : Intent) (q : Str) : Intent :=
  match i.query with
  | some s => if s.isEmpty then { i with query := some q } else i
  | none => { i with query := some q }

/-- `primaryAction = intent.action` for the first chunk (nlp.js 312-314);
a missing or empty action leaves the JS variable falsy. -/
def trackedAction (i : Intent) : Option Str :=
  match i.action with
  | some a => if a.isEmpty then none else some a
  | none => none

/-- The chunk prompt annotation (nlp.js lines 299-301). -/
def chunkPrompt (n i : Nat) (chunk : Str) : Str :=
  if n > 1 then
    "Part ".data ++ natToStr (i + 1) ++ " of ".data ++ natToStr n ++
    " of user request:\n\n".data ++ chunk
  else chunk

/-- One retry at the smaller chunk size (nlp.js lines 344-355): a retry
that fails — transport, budget, or JSON parse — contributes nothing. -/
def retryHalf (oracle : Oracle) (jsonParse : JsonParse) (sys : Str) (small : Str) :
    Option Intent :=
  match safeGroqCall oracle sys small with
  | .ok content =>
    let content := if content.isEmpty then jsonEmptyStr else content
    match jsonParse (cleanJsonResponse content) with
    | .ok intent => some intent
    | .error _ => none
  | .error _ => none

/-- The outer `catch` of the chunk loop (nlp.js lines 336-357): on a
token-mentioning error the chunk is re-split at
`MAX_INPUT_TOKENS_PER_CALL / 2` and each piece retried independently;
on any other error the chunk contributes nothing. -/
def tokenRecovery (oracle : Oracle) (jsonParse : JsonParse) (sys chunk : Str) (e : Str) :
    List Intent × Option Str :=
  if containsSub "token".data e then
    ((splitTextIntoChunks chunk (MAX_INPUT_TOKENS_PER_CALL / 2)).filterMap
      (retryHalf oracle jsonParse sys), none)
  else ([], none)

/-- Body of the chunk loop (nlp.js lines 295-358) for chunk `i` of `n`:
returns the intents contributed by this chunk, and the action tracked
for `primaryAction` when the parse or repair-parse succeeded. -/
def processChunk (oracle : Oracle) (jsonParse : JsonParse) (sys : Str)
    (n i : Nat) (chunk : Str) : List Intent × Option Str :=
  match safeGroqCall oracle sys (chunkPrompt n i chunk) with
  | .ok content =>
    let content := if content.isEmpty then jsonEmptyStr else content
    match jsonParse (cleanJsonResponse content) with
    | .ok intent => ([setQueryDefault intent chunk], trackedAction intent)
    | .error _ =>
      match jsonParse (repairTruncatedJson (cleanJsonResponse content)) with
      | .ok intent => ([setQueryDefault intent chunk], trackedAction intent)
      | .error _ =>
        match regexFallbackParser chunk with
        | .ok fi => ([fi], none)
        | .error e => tokenRecovery oracle jsonParse sys chunk e
  | .error e => tokenRecovery oracle jsonParse sys chunk e

/-- The multi-chunk path of `parseLongInput` (nlp.js lines 285-361). -/
def parseLongInputChunks (oracle : Oracle) (jsonParse : JsonParse) (sys userText : Str) :
    Intent :=
  let chunks := splitTextIntoChunks userText
    (MAX_INPUT_TOKENS_PER_CALL - estimateTokens sys - 100)
  let results := chunks.enum.map (fun p => processChunk oracle jsonParse sys chunks.length p.1 p.2)
  let allIntents := (results.map (·.1)).flatten
  let primaryAction :=
    match results.head? with
    | some r => r.2
    | none => none
  mergeIntents allIntents primaryAction

/-- `parseLongInput` (nlp.js lines 229-362).  The single-call path's
gateway error and a `TypeError` thrown by the fallback classifier
propagate to the caller (`Except.error`); the multi-chunk path catches
everything per chunk. -/
def parseLongInput (oracle : Oracle) (jsonParse : JsonParse) (userText : Str)
    (mode : Option Str) : Except Str Intent :=
  let sys := longSystemPrompt mode
  if estimateTokens (sys ++ userText) ≤ MAX_INPUT_TOKENS_PER_CALL then
    match safeGroqCall oracle sys userText with
    | .error e => .error e
    | .ok content =>
      let content := if content.isEmpty then jsonEmptyStr else content
      match jsonParse (cleanJsonResponse content) with
      | .ok parsed => .ok (setQueryDefault parsed userText)
      | .error _ =>
        match jsonParse (repairTruncatedJson (cleanJsonResponse content)) with
        | .ok parsed => .ok (setQueryDefault parsed userText)
        | .error _ =>
          match regexFallbackParser userText with
          | .ok fi => .ok fi
          | .error e => .error e
  else .ok (parseLongInputChunks oracle jsonParse sys userText)

def emptyInputIntent : Intent :=
  { action := some "error".data, message := some "Empty input".data }

def longRequestMsg : Str :=
  ("Your message is very long, so I\x27m processing it in parts. I\x27ll handle as much as I can in this pass.").data

/-- The outer `catch` of `parseIntent` (nlp.js lines 538-554). -/
def parseIntentErrorIntent (e : Str) : Intent :=
  if containsSub "token".data e then
    { action := some "error".data, message := some longRequestMsg, partialProcessing := true }
  else
    { action := some "error".data,
      message := some (if e.isEmpty then "Failed to parse intent".data else e) }

/-- `parseIntent` (nlp.js lines 475-555), the main entry point. -/
def parseIntent (oracle : Oracle) (jsonParse : JsonParse) (userText : Str)
    (mode : Option Str) : Intent :=
  if userText.isEmpty ∨ (jsTrim userText).isEmpty then emptyInputIntent
  else
    let sys := intentSystemPrompt mode
    let result : Except Str Intent :=
      if estimateTokens (sys ++ userText) ≤ MAX_INPUT_TOKENS_PER_CALL then
        match safeGroqCall oracle sys userText with
        | .error e => .error e
        | .ok content =>
          let content := if content.isEmpty then jsonEmptyStr else content
          match jsonParse (cleanJsonResponse content) with
          | .ok parsed => .ok (setQueryDefault parsed userText)
          | .error e => .error e
      else parseLongInput oracle jsonParse userText mode
    match result with
    | .ok i => i
    | .error e => parseIntentErrorIntent e

/-- Concrete input for the fallback classifier: 51 numbered list items
`1)x` … `51)x`, one per line. -/
def fiftyOneNumbered : Str :=
  (String.intercalate "\n" ((List.range 51).map (fun i => toString (i + 1) ++ ")x"))).data

/-- The non-whitespace characters of a string, in order: the quantity
preserved by the splitter's trimming and newline re-joining, used to
state whitespace-insensitive reconstruction. -/
def filterNW (l : Str) : Str := l.filter (fun c => !(jsWs c))

/-!
## Theorems

### C1 — per-chunk size bound

The line tier joins lines with `lineChunk += '\n' + line` but budgets only
`estimateTokens(lineChunk) + estimateTokens(line)`, ignoring the joining
newline, so a produced chunk can exceed the ceiling by the rounding of
that extra character.  `splitTextIntoChunks("aaaa\naaaa", 2)` returns the
single chunk `"aaaa\naaaa"` (9 characters, 3 estimated tokens > 2),
violating the bound stated by the function's own documentation
("Ensures each chunk's estimated tokens <= maxTokensPerChunk") and
asserted by `tests/test-token-splitting.js`.
-/

/-- C1: at the failing input `text = "aaaa\naaaa"`, `ceiling = 2`, the
splitter returns a chunk whose estimated token count is 3 > 2, so the
per-chunk size bound claimed by the spec (and by the code's own
documentation) does not hold. -/
theorem splitTextIntoChunks_bound_violation :
    splitTextIntoChunks "aaaa\naaaa".data 2 = ["aaaa\naaaa".data] ∧
    estimateTokens "aaaa\naaaa".data = 3 ∧ 2 < 3 := by decide

/-!
### C2 — concatenated chunks reconstruct the input

False: the sentence regex `/[^.!?]+[.!?]+/g` drops any text after the
last sentence terminator, so content can be lost.  What does hold: the
identity case `estimateTokens(t) ≤ ceiling` returns `[t]`, and on the
split path the chunks reconstruct, up to whitespace, exactly the regex
matches — the input minus its unterminated tail (and minus any leading
terminator run).  The lemmas below establish that every tier of the
splitter preserves the non-whitespace character sequence of the
sentences it is fed.
-/

/-- C2 counterexample: splitting `"aaaa.bbbb"` with ceiling 1 yields
chunks `["aaaa", "."]`; the text `"bbbb"` after the final terminator is
lost, so neither trimmed concatenation nor whitespace-insensitive
concatenation reconstructs the input. -/
theorem splitTextIntoChunks_loses_content :
    splitTextIntoChunks "aaaa.bbbb".data 1 = ["aaaa".data, ".".data] ∧
    ¬ jsTrim (splitTextIntoChunks "aaaa.bbbb".data 1).flatten = jsTrim "aaaa.bbbb".data ∧
    ¬ ((splitTextIntoChunks "aaaa.bbbb".data 1).flatten.filter (fun c => ¬ jsWs c)
        = "aaaa.bbbb".data.filter (fun c => ¬ jsWs c)) := by decide

lemma filterNW_append (a b : Str) : filterNW (a ++ b) = filterNW a ++ filterNW b := by
  simp [filterNW]

lemma filterNW_dropWhile (l : Str) : filterNW (l.dropWhile jsWs) = filterNW l := by
  conv_rhs => rw [← List.takeWhile_append_dropWhile (p := jsWs) (l := l)]
  rw [filterNW_append]
  have h : filterNW (l.takeWhile jsWs) = [] := by
    unfold filterNW
    rw [List.filter_eq_nil_iff]
    intro a ha
    simp [List.mem_takeWhile_imp ha]
  rw [h, List.nil_append]

lemma filterNW_reverse (l : Str) : filterNW l.reverse = (filterNW l).reverse := by
  simp [filterNW]

lemma filterNW_jsTrim (l : Str) : filterNW (jsTrim l) = filterNW l := by
  unfold jsTrim
  rw [filterNW_reverse, filterNW_dropWhile, filterNW_reverse, List.reverse_reverse,
    filterNW_dropWhile]

lemma filterNW_of_trim_empty (l : Str) (h : (jsTrim l).isEmpty = true) :
    filterNW l = [] := by
  rw [← filterNW_jsTrim, List.isEmpty_iff.mp h]
  rfl

lemma filterNW_flatten (ls : List Str) :
    filterNW ls.flatten = (ls.map filterNW).flatten := by
  simp only [filterNW, List.filter_flatten]
  rfl

lemma charChunksF_flatten (m : Nat) (hm : 1 ≤ m) :
    ∀ fuel l, l.length < fuel → (charChunksF m fuel l).flatten = l := by
  intro fuel
  induction fuel with
  | zero => intro l h; exact absurd h (Nat.not_lt_zero _)
  | succ n ih =>
    intro l h
    match l with
    | [] => rfl
    | c :: rest =>
      show ((c :: rest).take m :: charChunksF m n ((c :: rest).drop m)).flatten = c :: rest
      rw [List.flatten_cons,
        ih _ (by rw [List.length_drop, List.length_cons]; simp at h; omega)]
      exact List.take_append_drop m (c :: rest)

lemma charChunks_filterNW (m : Nat) (hm : 1 ≤ m) (l : Str) :
    filterNW ((charChunks m l).map jsTrim).flatten = filterNW l := by
  rw [filterNW_flatten, List.map_map,
    show filterNW ∘ jsTrim = filterNW from funext filterNW_jsTrim,
    ← filterNW_flatten]
  unfold charChunks
  rw [charChunksF_flatten m hm _ _ (Nat.lt_succ_self _)]

lemma filterNW_splitOn (s : Str) :
    ((s.splitOn '\n').map filterNW).flatten = filterNW s := by
  conv_rhs =>
    rw [show s = List.intercalate ['\n'] (s.splitOn '\n') from
      (List.intercalate_splitOn s '\n').symm]
  generalize s.splitOn '\n' = parts
  induction parts with
  | nil => rfl
  | cons a l ih =>
    cases l with
    | nil => simp [List.intercalate]
    | cons b l2 =>
      have hic : List.intercalate ['\n'] (a :: b :: l2) =
          a ++ ['\n'] ++ List.intercalate ['\n'] (b :: l2) := by
        simp [List.intercalate]
      rw [hic, filterNW_append, filterNW_append,
        show filterNW ['\n'] = [] from rfl, List.append_nil,
        List.map_cons, List.flatten_cons, ih]

/-- Flattening the sentence matches recovers the input up to a
terminator-free suffix: the regex drops the trailing unterminated run
(and a leading terminator run). -/
lemma sentGo_decomp :
    ∀ (l curRev : Str) (inTerm : Bool),
      (inTerm = false → ∀ x ∈ curRev, isTerm x = false) →
      (inTerm = true → curRev ≠ []) →
      ∃ post, (sentGo curRev inTerm l).flatten ++ post =
          curRev.reverse ++
            (if curRev = [] ∧ inTerm = false then l.dropWhile isTerm else l) ∧
        ∀ x ∈ post, isTerm x = false := by
  intro l
  induction l with
  | nil =>
    intro curRev inTerm hw hne
    cases inTerm with
    | true =>
      refine ⟨[], ?_, by simp⟩
      simp [sentGo]
    | false =>
      refine ⟨curRev.reverse, ?_, ?_⟩
      · simp [sentGo]
      · intro x hx
        exact hw rfl x (by simpa using hx)
  | cons c rest ih =>
    intro curRev inTerm hw hne
    by_cases hc : isTerm c = true
    · by_cases hcur : curRev.isEmpty = true
      · have hc0 : curRev = [] := List.isEmpty_iff.mp hcur
        have hit : inTerm = false := by
          cases inTerm with
          | false => rfl
          | true => exact absurd hc0 (hne rfl)
        subst hc0 hit
        have hstep : sentGo [] false (c :: rest) = sentGo [] false rest := by
          simp [sentGo, hc]
        obtain ⟨post, h1, h2⟩ := ih [] false (by intro _ x hx; cases hx) (by intro h; cases h)
        refine ⟨post, ?_, h2⟩
        rw [hstep, h1]
        simp [List.dropWhile_cons, hc]
      · have hc0 : curRev ≠ [] := fun h => by simp [h] at hcur
        have hstep : sentGo curRev inTerm (c :: rest) = sentGo (c :: curRev) true rest := by
          simp [sentGo, hc, hcur]
        obtain ⟨post, h1, h2⟩ :=
          ih (c :: curRev) true (by intro h; cases h) (by intro _ h; cases h)
        refine ⟨post, ?_, h2⟩
        rw [hstep, h1]
        have hcond : ¬(curRev = [] ∧ inTerm = false) := fun h => hc0 h.1
        rw [if_neg (by simp), if_neg hcond, List.reverse_cons, List.append_assoc]
        rfl
    · cases inTerm with
      | true =>
        have hstep : sentGo curRev true (c :: rest) =
            curRev.reverse :: sentGo [c] false rest := by
          simp [sentGo, hc]
        obtain ⟨post, h1, h2⟩ := ih [c] false
          (by intro _ x hx; simp at hx; subst hx; simpa using hc) (by intro h; cases h)
        refine ⟨post, ?_, h2⟩
        rw [hstep, List.flatten_cons, List.append_assoc, h1]
        rw [if_neg (by simp), if_neg (by simp)]
        simp [List.dropWhile_cons, hc]
      | false =>
        have hstep : sentGo curRev false (c :: rest) = sentGo (c :: curRev) false rest := by
          simp [sentGo, hc]
        obtain ⟨post, h1, h2⟩ := ih (c :: curRev) false
          (by
            intro _ x hx
            rcases List.mem_cons.mp hx with h | h
            · subst h; simpa using hc
            · exact hw rfl x h)
          (by intro h; cases h)
        refine ⟨post, ?_, h2⟩
        rw [hstep, h1]
        rw [if_neg (by simp)]
        by_cases h0 : curRev = []
        · subst h0
          simp [List.dropWhile_cons, hc]
        · rw [if_neg (by simp [h0]), List.reverse_cons, List.append_assoc]
          rfl

lemma filterNW_newline : filterNW ['\n'] = [] := rfl

lemma filterNW_cons_newline (l : Str) : filterNW ('\n' :: l) = filterNW l := by
  simp [filterNW, jsWs]

/-- The line tier appends exactly the line's non-whitespace characters
to the state's non-whitespace content. -/
lemma lineStep_filterNW (m : Nat) (hm : 1 ≤ m) (st : List Str × Str) (line : Str) :
    filterNW ((lineStep m st line).1.flatten ++ (lineStep m st line).2) =
      filterNW (st.1.flatten ++ st.2) ++ filterNW line := by
  obtain ⟨chunks, lineChunk⟩ := st
  have hcc : 1 ≤ m * 4 := by omega
  simp only [lineStep]
  by_cases h1 : estimateTokens lineChunk + estimateTokens line > m
  · rw [if_pos h1]
    by_cases ht : (jsTrim lineChunk).isEmpty = true
    · rw [if_pos ht]
      by_cases h2 : estimateTokens line > m
      · rw [if_pos h2]
        simp [List.flatten_append, filterNW_append, charChunks_filterNW (m * 4) hcc,
          filterNW_of_trim_empty _ ht]
      · rw [if_neg h2]
        simp [filterNW_append, filterNW_of_trim_empty _ ht]
    · rw [if_neg ht]
      by_cases h2 : estimateTokens line > m
      · rw [if_pos h2]
        simp [List.flatten_append, filterNW_append, charChunks_filterNW (m * 4) hcc,
          filterNW_jsTrim, List.append_assoc]
      · rw [if_neg h2]
        simp [List.flatten_append, filterNW_append, filterNW_jsTrim, List.append_assoc]
  · rw [if_neg h1]
    by_cases he : lineChunk.isEmpty = true
    · rw [if_pos he]
      simp [filterNW_append, List.append_assoc]
    · rw [if_neg he]
      simp [filterNW_append, filterNW_newline, filterNW_cons_newline, List.append_assoc]

lemma foldl_lineStep_filterNW (m : Nat) (hm : 1 ≤ m) (lines : List Str) :
    ∀ st : List Str × Str,
      filterNW ((lines.foldl (lineStep m) st).1.flatten ++
          (lines.foldl (lineStep m) st).2) =
        filterNW (st.1.flatten ++ st.2) ++ (lines.map filterNW).flatten := by
  induction lines with
  | nil => intro st; simp
  | cons a l ih =>
    intro st
    rw [List.foldl_cons, ih, lineStep_filterNW m hm, List.map_cons, List.flatten_cons,
      List.append_assoc]

lemma sentStep_line_branch (m : Nat) (hm : 1 ≤ m) (C : List Str) (s : Str) :
    filterNW (((s.splitOn '\n').foldl (lineStep m) (C, [])).1.flatten ++
        ((s.splitOn '\n').foldl (lineStep m) (C, [])).2) =
      filterNW C.flatten ++ filterNW s := by
  have hf := foldl_lineStep_filterNW m hm (s.splitOn '\n') (C, [])
  simpa [filterNW_splitOn] using hf

/-- The sentence tier appends exactly the sentence's non-whitespace
characters to the state's non-whitespace content. -/
lemma sentStep_filterNW (m : Nat) (hm : 1 ≤ m) (st : List Str × Str) (s : Str) :
    filterNW ((sentStep m st s).1.flatten ++ (sentStep m st s).2) =
      filterNW (st.1.flatten ++ st.2) ++ filterNW s := by
  obtain ⟨chunks, cur⟩ := st
  simp only [sentStep]
  split_ifs with hov hs ht htt htt2 ht3
  · simp only [] at htt ⊢
    have hb := sentStep_line_branch m hm chunks s
    rw [filterNW_append, filterNW_of_trim_empty _ htt, List.append_nil] at hb
    simp [filterNW_append, hb, filterNW_of_trim_empty _ ht]
  · simp only []
    have hb := sentStep_line_branch m hm chunks s
    simp [hb, filterNW_append, filterNW_of_trim_empty _ ht]
  · simp only [] at htt2 ⊢
    have hb := sentStep_line_branch m hm (chunks ++ [jsTrim cur]) s
    rw [filterNW_append, filterNW_of_trim_empty _ htt2, List.append_nil] at hb
    simp [hb, filterNW_append, List.flatten_append, filterNW_jsTrim, List.append_assoc]
  · simp only []
    have hb := sentStep_line_branch m hm (chunks ++ [jsTrim cur]) s
    simp [hb, filterNW_append, List.flatten_append, filterNW_jsTrim, List.append_assoc]
  · simp [filterNW_append, filterNW_of_trim_empty _ ht3]
  · simp [filterNW_append, List.flatten_append, filterNW_jsTrim, List.append_assoc]
  · simp [filterNW_append, List.append_assoc]

lemma foldl_sentStep_filterNW (m : Nat) (hm : 1 ≤ m) (sents : List Str) :
    ∀ st : List Str × Str,
      filterNW ((sents.foldl (sentStep m) st).1.flatten ++
          (sents.foldl (sentStep m) st).2) =
        filterNW (st.1.flatten ++ st.2) ++ (sents.map filterNW).flatten := by
  induction sents with
  | nil => intro st; simp
  | cons a l ih =>
    intro st
    rw [List.foldl_cons, ih, sentStep_filterNW m hm, List.map_cons, List.flatten_cons,
      List.append_assoc]

/-- C2 (amended): for every ceiling > 0, (1) when `estimateTokens t ≤
ceiling` the splitter returns `[t]` exactly; (2) otherwise the returned
chunks, concatenated, carry exactly the non-whitespace characters of the
sentence-regex matches of the input (or the splitter returns `[t]`
itself); and (3) those matches, flattened, are the input minus a
terminator-free unterminated suffix (after a leading terminator run) —
so reconstruction is exact up to whitespace except for that dropped
suffix, which the counterexample shows can be non-empty. -/
theorem splitTextIntoChunks_reconstruction (t : Str) (c : Nat) (hc : 0 < c) :
    (estimateTokens t ≤ c → splitTextIntoChunks t c = [t]) ∧
    (splitTextIntoChunks t c = [t] ∨
      filterNW (splitTextIntoChunks t c).flatten = filterNW (sentencesOf t).flatten) ∧
    (∃ post, (sentGo [] false t).flatten ++ post = t.dropWhile isTerm ∧
      ∀ x ∈ post, isTerm x = false) := by
  refine ⟨?_, ?_, ?_⟩
  · intro h
    unfold splitTextIntoChunks
    rw [if_pos (Or.inr h)]
  · by_cases hid : t.isEmpty = true ∨ estimateTokens t ≤ c
    · left
      unfold splitTextIntoChunks
      rw [if_pos hid]
    · simp only [splitTextIntoChunks]
      rw [if_neg hid]
      set F := (sentencesOf t).foldl (sentStep c) ([], []) with hF
      have hfold := foldl_sentStep_filterNW c hc (sentencesOf t) ([], [])
      rw [← hF, show filterNW ((([] : List Str), ([] : Str)).1.flatten ++
          (([] : List Str), ([] : Str)).2) = [] from rfl, List.nil_append,
        ← filterNW_flatten] at hfold
      by_cases hfin : (jsTrim F.2).isEmpty = true
      · rw [if_pos hfin]
        by_cases hce : F.1.isEmpty = true
        · rw [if_pos hce]
          left
          rfl
        · rw [if_neg hce]
          right
          rw [← hfold, filterNW_append, filterNW_of_trim_empty _ hfin, List.append_nil]
      · rw [if_neg hfin]
        by_cases hce : (F.1 ++ [jsTrim F.2]).isEmpty = true
        · rw [if_pos hce]
          left
          rfl
        · rw [if_neg hce]
          right
          rw [List.flatten_append, filterNW_append, ← hfold, filterNW_append]
          simp [filterNW_jsTrim]
  · obtain ⟨post, h1, h2⟩ := sentGo_decomp t [] false
      (by intro _ x hx; cases hx) (by intro h; cases h)
    refine ⟨post, ?_, h2⟩
    simpa using h1

/-- Witness for C2's amended theorem at the concrete input
`"aaa. bbb."` with ceiling 1 (which takes the split path). -/
theorem splitTextIntoChunks_reconstruction_witness :
    (estimateTokens "aaa. bbb.".data ≤ 1 →
      splitTextIntoChunks "aaa. bbb.".data 1 = ["aaa. bbb.".data]) ∧
    (splitTextIntoChunks "aaa. bbb.".data 1 = ["aaa. bbb.".data] ∨
      filterNW (splitTextIntoChunks "aaa. bbb.".data 1).flatten =
        filterNW (sentencesOf "aaa. bbb.".data).flatten) ∧
    (∃ post, (sentGo [] false "aaa. bbb.".data).flatten ++ post =
        "aaa. bbb.".data.dropWhile isTerm ∧
      ∀ x ∈ post, isTerm x = false) :=
  splitTextIntoChunks_reconstruction "aaa. bbb.".data 1 (by decide)

/-!
### C5 — fusion of zero / one intents

`mergeIntents([])` does not fail: it returns the sentinel object
`{ action: 'unknown', message: 'No intents parsed' }`.  `mergeIntents([x])`
returns `x` unchanged.
-/

/-- C5 counterexample: applied to the empty list, `mergeIntents` returns
normally — an intent object with action `unknown` carrying the message
`No intents parsed` — rather than failing with a thrown
`FusionInputEmpty` condition. -/
theorem mergeIntents_empty_returns_sentinel :
    (mergeIntents [] none).action = some "unknown".data ∧
    (mergeIntents [] none).message = some "No intents parsed".data := by decide

/-- C5 (amended): `mergeIntents [x]` returns `x` unchanged for any pinned
primary action, and `mergeIntents []` returns the explicit sentinel
intent (a normal return value, not a failure). -/
theorem mergeIntents_identity_and_empty (x : Intent) (pa pb : Option Str) :
    mergeIntents [x] pa = x ∧
    mergeIntents [] pb =
      { action := some "unknown".data, message := some "No intents parsed".data } :=
  ⟨rfl, rfl⟩

/-!
### Fusion fold lemmas (shared by C4 and C6)
-/

lemma mergeStep_tasks (m i : Intent) : (mergeStep m i).tasks = m.tasks ++ i.tasks := rfl

lemma mergeStep_action (m i : Intent) : (mergeStep m i).action = m.action := rfl

lemma foldl_mergeStep_tasks (l : List Intent) (b : Intent) :
    (l.foldl mergeStep b).tasks = b.tasks ++ (l.map (·.tasks)).flatten := by
  induction l generalizing b with
  | nil => simp
  | cons i l ih => simp [List.foldl_cons, ih, mergeStep_tasks, List.append_assoc]

lemma foldl_mergeStep_action (l : List Intent) (b : Intent) :
    (l.foldl mergeStep b).action = b.action := by
  induction l generalizing b with
  | nil => rfl
  | cons i l ih => rw [List.foldl_cons, ih, mergeStep_action]

/-!
### C6 — task overflow handling

The structural claim holds (first 20 kept, remainder queued, non-empty
warning), but the warning message interpolates the total fused task
count, not the queued count.
-/

/-- C6 counterexample: fusing 30 tasks queues 10, but the warning string
`This is a long request with 30 tasks. Processing in batches.` does not
mention the queued count 10 anywhere. -/
theorem mergeIntents_warning_counterexample :
    (mergeIntents
      [{ action := some "create_task".data, tasks := List.replicate 15 { title := "t".data } },
       { action := some "create_task".data, tasks := List.replicate 15 { title := "t".data } }]
      none).queue.length = 10 ∧
    (mergeIntents
      [{ action := some "create_task".data, tasks := List.replicate 15 { title := "t".data } },
       { action := some "create_task".data, tasks := List.replicate 15 { title := "t".data } }]
      none).warning = some (warnMsg 30) ∧
    containsSub (natToStr 10) (warnMsg 30) = false := by decide

/-- C6 (amended): for two or more intents whose concatenated `tasks`
exceed 20 items, the fused intent exposes the first 20 tasks in order,
queues the remainder, and carries the non-empty warning interpolating
the *total* fused task count. -/
theorem mergeIntents_overflow (intents : List Intent) (pa : Option Str)
    (h2 : 2 ≤ intents.length)
    (hT : 20 < ((intents.map (·.tasks)).flatten).length) :
    (mergeIntents intents pa).tasks = ((intents.map (·.tasks)).flatten).take 20 ∧
    (mergeIntents intents pa).queue = ((intents.map (·.tasks)).flatten).drop 20 ∧
    (mergeIntents intents pa).warning =
      some (warnMsg ((intents.map (·.tasks)).flatten).length) ∧
    warnMsg ((intents.map (·.tasks)).flatten).length ≠ [] := by
  match intents with
  | [] => simp at h2
  | [x] => simp at h2
  | i0 :: i1 :: rest =>
    simp only [mergeIntents]
    rw [foldl_mergeStep_tasks]
    simp only [List.nil_append]
    rw [if_pos (by simpa using hT)]
    refine ⟨rfl, rfl, rfl, ?_⟩
    simp [warnMsg]

/-- Witness for C6's amended theorem: 23 fused tasks (12 + 11) yield 20
kept tasks, a 3-item queue and the warning. -/
theorem mergeIntents_overflow_witness :
    (mergeIntents
      [{ action := some "create_task".data, tasks := List.replicate 12 { title := "t".data } },
       { action := some "create_task".data, tasks := List.replicate 11 { title := "t".data } }]
      none).tasks =
      ((([{ action := some "create_task".data, tasks := List.replicate 12 { title := "t".data } },
          { action := some "create_task".data, tasks := List.replicate 11 { title := "t".data } }] :
          List Intent).map (·.tasks)).flatten).take 20 ∧
    (mergeIntents
      [{ action := some "create_task".data, tasks := List.replicate 12 { title := "t".data } },
       { action := some "create_task".data, tasks := List.replicate 11 { title := "t".data } }]
      none).queue =
      ((([{ action := some "create_task".data, tasks := List.replicate 12 { title := "t".data } },
          { action := some "create_task".data, tasks := List.replicate 11 { title := "t".data } }] :
          List Intent).map (·.tasks)).flatten).drop 20 ∧
    (mergeIntents
      [{ action := some "create_task".data, tasks := List.replicate 12 { title := "t".data } },
       { action := some "create_task".data, tasks := List.replicate 11 { title := "t".data } }]
      none).warning =
      some (warnMsg ((([{ action := some "create_task".data, tasks := List.replicate 12 { title := "t".data } },
          { action := some "create_task".data, tasks := List.replicate 11 { title := "t".data } }] :
          List Intent).map (·.tasks)).flatten).length) ∧
    warnMsg ((([{ action := some "create_task".data, tasks := List.replicate 12 { title := "t".data } },
        { action := some "create_task".data, tasks := List.replicate 11 { title := "t".data } }] :
        List Intent).map (·.tasks)).flatten).length ≠ [] :=
  mergeIntents_overflow _ none (by decide) (by decide)

/-!
### C4 — fused action selection

`mergeIntents` takes the orchestrator's pinned `primaryAction` as an
argument; when it is set (as `parseLongInput` does from the first
successfully parsed chunk), priority-based selection is bypassed and the
pinned action wins regardless of priorities.  Only when no primary
action is pinned is the highest-priority action among the inputs chosen.
-/

set_option maxHeartbeats 1000000 in
lemma actionPriority_nonneg (a : Str) : 0 ≤ actionPriority a := by
  unfold actionPriority
  split_ifs <;> decide

lemma selectStep_go (l : List Intent) (p : Int) (cur : Option Str) :
    ((∀ i ∈ l, actionPriority (actionOrUnknown i) ≤ p) ∧
      l.foldl selectStep (p, cur) = (p, cur)) ∨
    (∃ i ∈ l,
      l.foldl selectStep (p, cur) =
        (actionPriority (actionOrUnknown i), some (actionOrUnknown i)) ∧
      p < actionPriority (actionOrUnknown i) ∧
      ∀ j ∈ l, actionPriority (actionOrUnknown j) ≤ actionPriority (actionOrUnknown i)) := by
  induction l generalizing p cur with
  | nil => exact Or.inl ⟨by simp, rfl⟩
  | cons i l ih =>
    rw [List.foldl_cons]
    by_cases h : actionPriority (actionOrUnknown i) > p
    · have hstep : selectStep (p, cur) i =
          (actionPriority (actionOrUnknown i), some (actionOrUnknown i)) := by
        simp [selectStep, h]
      rw [hstep]
      rcases ih (actionPriority (actionOrUnknown i)) (some (actionOrUnknown i)) with
        ⟨hall, heq⟩ | ⟨j, hj, heq, hlt, hmax⟩
      · refine Or.inr ⟨i, List.mem_cons_self _ _, heq, h, ?_⟩
        intro k hk
        rcases List.mem_cons.mp hk with rfl | hk
        · exact le_refl _
        · exact hall k hk
      · refine Or.inr ⟨j, List.mem_cons_of_mem _ hj, heq, lt_trans h hlt, ?_⟩
        intro k hk
        rcases List.mem_cons.mp hk with rfl | hk
        · exact le_of_lt hlt
        · exact hmax k hk
    · have hstep : selectStep (p, cur) i = (p, cur) := by
        simp [selectStep]
        intro hc
        exact absurd hc h
      rw [hstep]
      rcases ih p cur with ⟨hall, heq⟩ | ⟨j, hj, heq, hlt, hmax⟩
      · refine Or.inl ⟨?_, heq⟩
        intro k hk
        rcases List.mem_cons.mp hk with rfl | hk
        · exact not_lt.mp h
        · exact hall k hk
      · refine Or.inr ⟨j, List.mem_cons_of_mem _ hj, heq, hlt, ?_⟩
        intro k hk
        rcases List.mem_cons.mp hk with rfl | hk
        · exact le_trans (not_lt.mp h) (le_of_lt hlt)
        · exact hmax k hk

lemma selectPrimary_spec (l : List Intent) (hne : l ≠ []) :
    ∃ i ∈ l, selectPrimary l = some (actionOrUnknown i) ∧
      ∀ j ∈ l, actionPriority (actionOrUnknown j) ≤ actionPriority (actionOrUnknown i) := by
  rcases selectStep_go l (-1) none with ⟨hall, _⟩ | ⟨i, hi, heq, _, hmax⟩
  · match l, hne with
    | i :: l, _ =>
      have h1 := hall i (List.mem_cons_self _ _)
      have h2 := actionPriority_nonneg (actionOrUnknown i)
      omega
  · exact ⟨i, hi, by unfold selectPrimary; rw [heq], hmax⟩

lemma mergeIntents_action_cons2 (i0 i1 : Intent) (rest : List Intent) (pa : Option Str) :
    (mergeIntents (i0 :: i1 :: rest) pa).action =
      (match pa with
       | some a => if a.isEmpty then selectPrimary (i0 :: i1 :: rest) else some a
       | none => selectPrimary (i0 :: i1 :: rest)) := by
  simp only [mergeIntents]
  split <;> rw [foldl_mergeStep_action]

/-- C4 counterexample: with the primary action pinned to `list_tasks`
(as the orchestrator pins it from the first chunk), fusing inputs with
actions `list_tasks` then `create_task` selects `list_tasks`, although
`create_task` has the strictly higher priority — refuting "fusion
selects create_task … regardless". -/
theorem mergeIntents_pinned_counterexample :
    (mergeIntents
       [({ action := some "list_tasks".data } : Intent),
        { action := some "create_task".data }]
       (some "list_tasks".data)).action = some "list_tasks".data ∧
    ("list_tasks".data : Str) ≠ "create_task".data ∧
    actionPriority "list_tasks".data < actionPriority "create_task".data := by decide

/-- C4 (amended): for two or more intents, when a non-empty primary
action is pinned the fused action is the pinned action; when none is
pinned the fused action is an input action of maximal priority, and —
for actions from the closed enumeration, whose priorities are distinct —
this selection is independent of the order of the inputs. -/
theorem mergeIntents_action_selection (intents : List Intent) (pa : Str)
    (h2 : 2 ≤ intents.length) :
    (pa ≠ [] → (mergeIntents intents (some pa)).action = some pa) ∧
    (∃ a ∈ intents.map actionOrUnknown,
      (mergeIntents intents none).action = some a ∧
      ∀ b ∈ intents.map actionOrUnknown, actionPriority b ≤ actionPriority a) ∧
    (∀ intents' : List Intent, 2 ≤ intents'.length →
      (intents.map actionOrUnknown).Perm (intents'.map actionOrUnknown) →
      (∀ x ∈ intents.map actionOrUnknown, x ∈ actionEnum) →
      (mergeIntents intents none).action = (mergeIntents intents' none).action) := by
  have hspec : ∀ m : List Intent, 2 ≤ m.length →
      ∃ a ∈ m.map actionOrUnknown, (mergeIntents m none).action = some a ∧
        ∀ b ∈ m.map actionOrUnknown, actionPriority b ≤ actionPriority a := by
    intro m hm
    match m, hm with
    | i0 :: i1 :: rest, _ =>
      obtain ⟨i, hi, hsel, hmax⟩ :=
        selectPrimary_spec (i0 :: i1 :: rest) (by simp)
      refine ⟨actionOrUnknown i, List.mem_map_of_mem _ hi, ?_, ?_⟩
      · rw [mergeIntents_action_cons2]
        exact hsel
      · intro b hb
        obtain ⟨j, hj, rfl⟩ := List.mem_map.mp hb
        exact hmax j hj
  refine ⟨?_, hspec intents h2, ?_⟩
  · intro hpa
    match intents, h2 with
    | i0 :: i1 :: rest, _ =>
      rw [mergeIntents_action_cons2]
      simp only []
      rw [if_neg (by simpa using hpa)]
  · intro intents' h2' hperm henum
    have hinj : ∀ a ∈ actionEnum, ∀ b ∈ actionEnum,
        actionPriority a = actionPriority b → a = b := by decide
    obtain ⟨a, haMem, haEq, haMax⟩ := hspec intents h2
    obtain ⟨a2, ha2Mem, ha2Eq, ha2Max⟩ := hspec intents' h2'
    have h1 : actionPriority a ≤ actionPriority a2 := ha2Max a (hperm.mem_iff.mp haMem)
    have h2le : actionPriority a2 ≤ actionPriority a := haMax a2 (hperm.mem_iff.mpr ha2Mem)
    have heqp : actionPriority a = actionPriority a2 := le_antisymm h1 h2le
    have haEnum : a ∈ actionEnum := henum a haMem
    have ha2Enum : a2 ∈ actionEnum := henum a2 (hperm.mem_iff.mpr ha2Mem)
    have : a = a2 := hinj a haEnum a2 ha2Enum heqp
    rw [haEq, ha2Eq, this]

/-- Witness for C4's amended theorem: pinning `delete_task` over inputs
`list_tasks`, `create_task` yields `delete_task`. -/
theorem mergeIntents_action_selection_witness :
    2 ≤ ([({ action := some "list_tasks".data } : Intent),
          { action := some "create_task".data }] : List Intent).length ∧
    (mergeIntents
       [({ action := some "list_tasks".data } : Intent),
        { action := some "create_task".data }]
       (some "delete_task".data)).action = some "delete_task".data :=
  ⟨by decide, (mergeIntents_action_selection _ "delete_task".data (by decide)).1 (by decide)⟩

/-!
### C7 — bracket balancing by `repairTruncatedJson`

The repair only *appends* closers for unmatched openers; when a closing
bracket/brace count already exceeds the opening count nothing is removed
and the result stays unbalanced.  Balancing holds exactly when closer
counts do not exceed opener counts (the truncation situation the
function is written for).
-/

lemma countCh_eq (c : Char) (l : Str) : countCh c l = List.count c l := rfl

lemma count_dropWhile_jsWs (c : Char) (hc : jsWs c = false) (l : Str) :
    List.count c (l.dropWhile jsWs) = List.count c l := by
  conv_rhs => rw [← List.takeWhile_append_dropWhile (p := jsWs) (l := l)]
  rw [List.count_append]
  have hz : (l.takeWhile jsWs).count c = 0 := by
    rw [List.count_eq_zero]
    intro hmem
    have hw := List.mem_takeWhile_imp hmem
    rw [hc] at hw
    exact Bool.noConfusion hw
  omega

lemma count_jsTrim (c : Char) (hc : jsWs c = false) (l : Str) :
    List.count c (jsTrim l) = List.count c l := by
  unfold jsTrim
  rw [List.count_reverse, count_dropWhile_jsWs c hc, List.count_reverse,
    count_dropWhile_jsWs c hc]

lemma count_dropWsThenCloser (c : Char) (hc : jsWs c = false) :
    ∀ l cl rest2, dropWsThenCloser l = some (cl, rest2) →
      List.count c l = List.count c (cl :: rest2) := by
  intro l
  induction l with
  | nil => intro cl r h; exact Option.noConfusion h
  | cons x xs ih =>
    intro cl r h
    unfold dropWsThenCloser at h
    split_ifs at h with h1 h2
    · cases h
      rfl
    · have hcount := ih cl r h
      have hne : c ≠ x := by
        intro he
        rw [he, h2] at hc
        exact Bool.noConfusion hc
      rw [List.count_cons_of_ne hne, hcount]

lemma count_removeTrailingCommasF (c : Char) (hc : jsWs c = false) (hcm : c ≠ ',') :
    ∀ fuel l, List.count c (removeTrailingCommasF fuel l) = List.count c l := by
  intro fuel
  induction fuel with
  | zero => intro l; rfl
  | succ n ih =>
    intro l
    match l with
    | [] => rfl
    | x :: xs =>
      show List.count c
        (if x = ',' then
          match dropWsThenCloser xs with
          | some (cl, rest2) => cl :: removeTrailingCommasF n rest2
          | none => ',' :: removeTrailingCommasF n xs
         else x :: removeTrailingCommasF n xs) = List.count c (x :: xs)
      split_ifs with hx
      · subst hx
        cases hdr : dropWsThenCloser xs with
        | none =>
          rw [List.count_cons_of_ne hcm, List.count_cons_of_ne hcm, ih xs]
        | some p =>
          obtain ⟨cl, r⟩ := p
          have hxs := count_dropWsThenCloser c hc xs cl r hdr
          rw [List.count_cons_of_ne hcm, hxs]
          by_cases hccl : c = cl
          · subst hccl
            rw [List.count_cons_self, List.count_cons_self, ih r]
          · rw [List.count_cons_of_ne hccl, List.count_cons_of_ne hccl, ih r]
      · by_cases hcx : c = x
        · subst hcx
          rw [List.count_cons_self, List.count_cons_self, ih xs]
        · rw [List.count_cons_of_ne hcx, List.count_cons_of_ne hcx, ih xs]

lemma count_replicate_ne {c d : Char} (hne : c ≠ d) (n : Nat) :
    List.count c (List.replicate n d) = 0 := by
  rw [List.count_eq_zero]
  intro hm
  exact hne (List.eq_of_mem_replicate hm)

/-- C7 counterexample: `repair("]")` returns `"]"`, which has zero `[`
and one `]` — the bracket counts are not equal. -/
theorem repairTruncatedJson_unbalanced_counterexample :
    repairTruncatedJson "]".data = "]".data ∧
    countCh '[' (repairTruncatedJson "]".data) = 0 ∧
    countCh ']' (repairTruncatedJson "]".data) = 1 := by decide

/-- C7 (amended): whenever the input's closing counts do not exceed its
opening counts (in particular for output truncated mid-structure), the
repaired string has equal `\x7b`/`\x7d` and `[`/`]` counts, closers being
appended brackets-before-braces; the spec's concrete example repairs as
stated. -/
theorem repairTruncatedJson_balances (s : Str)
    (hbk : countCh ']' s ≤ countCh '[' s)
    (hbc : countCh '\x7d' s ≤ countCh '\x7b' s) :
    countCh '\x7b' (repairTruncatedJson s) = countCh '\x7d' (repairTruncatedJson s) ∧
    countCh '[' (repairTruncatedJson s) = countCh ']' (repairTruncatedJson s) ∧
    repairTruncatedJson "\x7b\"a\":1,\"b\":[1,2".data = "\x7b\"a\":1,\"b\":[1,2]\x7d".data := by
  simp only [countCh_eq] at hbk hbc
  rw [← count_jsTrim ']' (by decide) s, ← count_jsTrim '[' (by decide) s] at hbk
  rw [← count_jsTrim '\x7d' (by decide) s, ← count_jsTrim '\x7b' (by decide) s] at hbc
  refine ⟨?_, ?_, by decide⟩ <;>
  · simp only [repairTruncatedJson, countCh_eq]
    unfold removeTrailingCommas
    rw [count_removeTrailingCommasF _ (by decide) (by decide),
        count_removeTrailingCommasF _ (by decide) (by decide)]
    have eb1 : ∀ n, List.count '\x7b' (List.replicate n ']') = 0 :=
      fun n => count_replicate_ne (by decide) n
    have eb2 : ∀ n, List.count '\x7b' (List.replicate n '\x7d') = 0 :=
      fun n => count_replicate_ne (by decide) n
    have eb3 : ∀ n, List.count '\x7d' (List.replicate n ']') = 0 :=
      fun n => count_replicate_ne (by decide) n
    have ek1 : ∀ n, List.count '[' (List.replicate n ']') = 0 :=
      fun n => count_replicate_ne (by decide) n
    have ek2 : ∀ n, List.count '[' (List.replicate n '\x7d') = 0 :=
      fun n => count_replicate_ne (by decide) n
    have ek3 : ∀ n, List.count ']' (List.replicate n '\x7d') = 0 :=
      fun n => count_replicate_ne (by decide) n
    simp only [List.count_append, eb1, eb2, eb3, ek1, ek2, ek3,
      List.count_replicate_self]
    omega

/-- Witness for C7's amended theorem at the spec's concrete example
input, whose closing counts (0, 0) do not exceed its opening counts. -/
theorem repairTruncatedJson_balances_witness :
    countCh '\x7b' (repairTruncatedJson "\x7b\"a\":1,\"b\":[1,2".data) =
      countCh '\x7d' (repairTruncatedJson "\x7b\"a\":1,\"b\":[1,2".data) ∧
    countCh '[' (repairTruncatedJson "\x7b\"a\":1,\"b\":[1,2".data) =
      countCh ']' (repairTruncatedJson "\x7b\"a\":1,\"b\":[1,2".data) ∧
    repairTruncatedJson "\x7b\"a\":1,\"b\":[1,2".data = "\x7b\"a\":1,\"b\":[1,2]\x7d".data :=
  repairTruncatedJson_balances "\x7b\"a\":1,\"b\":[1,2".data (by decide) (by decide)

/-!
### C8 — pre-flight budget enforcement in the call gateway

Confirmed: when the estimated size of `systemPrompt + userPrompt`
exceeds `MAX_INPUT_TOKENS_PER_CALL`, `safeGroqCall` fails with the
budget message and its result does not depend on the oracle at all (the
oracle is never consulted); within the budget, the result is exactly the
dispatch to the oracle, so the pre-flight check raises nothing.
-/

/-- C8: over budget, the gateway fails with the budget error
independently of the oracle; within budget, the result is the oracle
dispatch (no pre-flight budget error). -/
theorem safeGroqCall_budget_preflight (oracle : Oracle) (sys usr : Str) :
    (estimateTokens (sys ++ usr) > MAX_INPUT_TOKENS_PER_CALL →
      safeGroqCall oracle sys usr = .error (budgetErrorMsg (estimateTokens (sys ++ usr))) ∧
      ∀ oracle2 : Oracle, safeGroqCall oracle2 sys usr = safeGroqCall oracle sys usr) ∧
    (estimateTokens (sys ++ usr) ≤ MAX_INPUT_TOKENS_PER_CALL →
      safeGroqCall oracle sys usr = oracleDispatch oracle sys usr) := by
  constructor
  · intro h
    constructor
    · unfold safeGroqCall
      rw [if_pos h]
    · intro oracle2
      unfold safeGroqCall
      rw [if_pos h, if_pos h]
  · intro h
    unfold safeGroqCall
    rw [if_neg (by omega)]

/-- Witness for C8 at concrete inputs on both sides of the budget:
24004 characters estimate to 6001 > 6000 tokens and are rejected before
any oracle call; a short prompt goes straight to the oracle dispatch. -/
lemma estimateTokens_def (t : Str) : estimateTokens t = (t.length + 3) / 4 := rfl

theorem safeGroqCall_budget_preflight_witness :
    safeGroqCall (fun _ _ => .ok "x".data) [] (List.replicate 24004 'a') =
      .error (budgetErrorMsg (estimateTokens (([] : Str) ++ List.replicate 24004 'a'))) ∧
    safeGroqCall (fun _ _ => .ok "x".data) [] "hi".data =
      oracleDispatch (fun _ _ => .ok "x".data) [] "hi".data := by
  have hest : estimateTokens (([] : Str) ++ List.replicate 24004 'a') = 6001 := by
    rw [estimateTokens_def, List.nil_append, List.length_replicate]
  constructor
  · exact ((safeGroqCall_budget_preflight (fun _ _ => .ok "x".data) []
      (List.replicate 24004 'a')).1 (by rw [hest]; decide)).1
  · exact (safeGroqCall_budget_preflight (fun _ _ => .ok "x".data) [] "hi".data).2
      (by decide)

/-!
### C10 — fallback classifier default branch

When no rule matches, the default is create-task with titles from
numbered-list markers, or else from non-blank lines.  The 50-item cap,
however, is applied only in the line branch (`lines.slice(0, 50)`,
nlp.js line 679); the numbered-marker branch (`taskMatches.map`, line
668) is uncapped: 51 numbered items produce 51 tasks.
-/

set_option maxRecDepth 8000 in
/-- C10 counterexample: the input `1)x\n2)x\n…\n51)x` matches no rule,
and the numbered-marker branch produces 51 task entries — above the
claimed cap of 50. -/
theorem regexFallbackParser_uncapped_counterexample :
    noRuleMatch fiftyOneNumbered = true ∧
    (match regexFallbackParser fiftyOneNumbered with
     | .ok i => i.tasks.length
     | .error _ => 0) = 51 ∧ 50 < 51 := by decide

/-- C10 (amended): on input matching no rule the classifier returns
(never throws) a create-task intent whose tasks come from the
numbered-marker decomposition when markers exist (uncapped), and
otherwise from the non-blank lines capped at 50. -/
theorem regexFallbackParser_default_branch (t : Str) (h : noRuleMatch t = true) :
    regexFallbackParser t =
      .ok { mode := some "auto".data, action := some "create_task".data,
            entities := [], query := some t, fallback := true,
            tasks :=
              if (scanNumbered t).isEmpty then
                (((t.splitOn '\n').filter (fun line => ¬ (jsTrim line).isEmpty)).take 50).map
                  (fun line =>
                    { title := jsTrim line, description := [], priority := "medium".data })
              else
                (scanNumbered t).map
                  (fun m =>
                    { title := jsTrim (stripNumParen m), description := [],
                      priority := "medium".data }) } ∧
    ((scanNumbered t).isEmpty →
      (match regexFallbackParser t with
       | .ok i => i.tasks.length
       | .error _ => 0) ≤ 50) := by
  obtain ⟨⟨⟨⟨⟨⟨⟨⟨h1, h2⟩, h3⟩, h4⟩, h5⟩, h6⟩, h7⟩, h8⟩, h9⟩ :
      (((((((guardComplete t = false ∧ guardDelete t = false) ∧ guardPriority t = false) ∧
        guardList t = false) ∧ guardNote t = false) ∧ guardFocus t = false) ∧
        guardUrgent t = false) ∧ mathAnchoredTest t = false) ∧ guardGreeting t = false := by
    simpa [noRuleMatch] using h
  have hsplit : regexFallbackParser t =
      .ok { mode := some "auto".data, action := some "create_task".data,
            entities := [], query := some t, fallback := true,
            tasks :=
              if (scanNumbered t).isEmpty then
                (((t.splitOn '\n').filter (fun line => ¬ (jsTrim line).isEmpty)).take 50).map
                  (fun line =>
                    { title := jsTrim line, description := [], priority := "medium".data })
              else
                (scanNumbered t).map
                  (fun m =>
                    { title := jsTrim (stripNumParen m), description := [],
                      priority := "medium".data }) } := by
    unfold regexFallbackParser
    rw [if_neg (by simp [h1]), if_neg (by simp [h2]), if_neg (by simp [h3]),
        if_neg (by simp [h4]), if_neg (by simp [h5]), if_neg (by simp [h6]),
        if_neg (by simp [h7]), if_neg (by simp [h8]), if_neg (by simp [h9])]
    by_cases hm : (scanNumbered t).isEmpty <;> simp [hm]
  refine ⟨hsplit, ?_⟩
  intro hm
  rw [hsplit]
  simp only [hm, if_true]
  rw [List.length_map, List.length_take]
  exact min_le_left _ _

/-- Witness for C10's amended theorem: two non-blank lines with no
numbered markers become two capped create-task titles. -/
theorem regexFallbackParser_default_branch_witness :
    noRuleMatch "buy milk\nwalk dog".data = true ∧
    regexFallbackParser "buy milk\nwalk dog".data =
      .ok { mode := some "auto".data, action := some "create_task".data,
            entities := [], query := some "buy milk\nwalk dog".data, fallback := true,
            tasks :=
              if (scanNumbered "buy milk\nwalk dog".data).isEmpty then
                ((("buy milk\nwalk dog".data.splitOn '\n').filter
                    (fun line => ¬ (jsTrim line).isEmpty)).take 50).map
                  (fun line =>
                    { title := jsTrim line, description := [], priority := "medium".data })
              else
                (scanNumbered "buy milk\nwalk dog".data).map
                  (fun m =>
                    { title := jsTrim (stripNumParen m), description := [],
                      priority := "medium".data }) } :=
  ⟨by decide, (regexFallbackParser_default_branch "buy milk\nwalk dog".data (by decide)).1⟩

/-!
### C9 — budget-failure recovery in the chunk loop

The re-split-at-half-ceiling retry branch (nlp.js lines 340-355) is
keyed on the *caught* error message containing lowercase `token`.  An
oracle-reported token/budget error is rewrapped by the gateway as
`Token limit exceeded. Try with smaller input.` (capital T, nlp.js line
214), which fails that check: such a chunk is dropped entirely — no
re-split, no fallback classification.  When the branch does fire (the
gateway's own pre-flight message contains lowercase `tokens`), each half
is retried independently, and a half whose retry fails contributes
nothing (`filterMap`) — it is not classified by the fallback either.
-/

set_option maxRecDepth 8000 in
/-- C9 counterexample: with every oracle call failing with a token
error, the chunk loop produces *no* intents — the final result is the
empty-fusion sentinel `{action: 'unknown', message: 'No intents
parsed'}` — even though the fallback classifier applied to the same
content would have produced two create-task titles.  The content is
abandoned, not classified. -/
theorem parseLongInput_retry_drop_counterexample :
    parseLongInputChunks (fun _ _ => .error "token limit hit".data)
        (fun _ => .error "boom".data) (longSystemPrompt none) "1) aaa\n2) bbb".data =
      { action := some "unknown".data, message := some "No intents parsed".data } ∧
    regexFallbackParser "1) aaa\n2) bbb".data =
      .ok { mode := some "auto".data, action := some "create_task".data, entities := [],
            query := some "1) aaa\n2) bbb".data, fallback := true,
            tasks := [{ title := "aaa".data, description := [], priority := "medium".data },
                      { title := "bbb".data, description := [], priority := "medium".data }] } := by
  exact ⟨by decide, by rfl⟩

/-- C9 (amended): for a chunk whose gateway call fails, (1) if the
caught message contains lowercase `token` the chunk is re-split at half
the per-call ceiling and each half retried independently, failed halves
contributing nothing; (2) if it does not, the chunk is dropped with no
retry; and (3) an oracle-reported token error (within budget) is
rewrapped with a capital-T message, so the chunk is dropped entirely —
neither re-split nor fallback-classified. -/
theorem processChunk_token_retry (oracle : Oracle) (jp : JsonParse) (sys : Str)
    (n i : Nat) (chunk e : Str)
    (hcall : safeGroqCall oracle sys (chunkPrompt n i chunk) = .error e) :
    (containsSub "token".data e = true →
      processChunk oracle jp sys n i chunk =
        ((splitTextIntoChunks chunk (MAX_INPUT_TOKENS_PER_CALL / 2)).filterMap
          (retryHalf oracle jp sys), none)) ∧
    (containsSub "token".data e = false →
      processChunk oracle jp sys n i chunk = ([], none)) ∧
    (∀ eo : Str, containsSub "token".data eo = true →
      oracle sys (chunkPrompt n i chunk) = .error eo →
      estimateTokens (sys ++ chunkPrompt n i chunk) ≤ MAX_INPUT_TOKENS_PER_CALL →
      processChunk oracle jp sys n i chunk = ([], none)) := by
  have hred : processChunk oracle jp sys n i chunk =
      tokenRecovery oracle jp sys chunk e := by
    unfold processChunk
    rw [hcall]
  refine ⟨?_, ?_, ?_⟩
  · intro htok
    rw [hred]
    unfold tokenRecovery
    rw [if_pos htok]
  · intro htok
    rw [hred]
    unfold tokenRecovery
    rw [if_neg (by rw [htok]; exact Bool.false_ne_true)]
  · intro eo htok horacle hbudget
    have hwrap : safeGroqCall oracle sys (chunkPrompt n i chunk) = .error tokenLimitMsg := by
      unfold safeGroqCall
      rw [if_neg (by omega)]
      unfold oracleDispatch
      simp only [horacle]
      rw [if_pos htok]
    have he : e = tokenLimitMsg := by
      rw [hwrap] at hcall
      exact (Except.error.inj hcall).symm
    rw [hred, he]
    unfold tokenRecovery
    rw [if_neg (by decide)]

/-- Witness for C9's amended theorem: a pre-flight budget failure (the
only gateway error whose message contains lowercase `token`) triggers
the re-split path; an oracle error with a capital-T token message is
dropped with no retry. -/
theorem processChunk_token_retry_witness :
    processChunk (fun _ _ => .error "x".data) (fun _ => .error "y".data) []
        1 0 (List.replicate 24004 'a') =
      ((splitTextIntoChunks (List.replicate 24004 'a') (MAX_INPUT_TOKENS_PER_CALL / 2)).filterMap
        (retryHalf (fun _ _ => .error "x".data) (fun _ => .error "y".data) []), none) ∧
    processChunk (fun _ _ => .error "Service Token Err".data) (fun _ => .error "y".data) []
        1 0 "c".data = ([], none) := by
  have hcp : chunkPrompt 1 0 (List.replicate 24004 'a') = List.replicate 24004 'a' := rfl
  have hest : estimateTokens (([] : Str) ++ chunkPrompt 1 0 (List.replicate 24004 'a')) = 6001 := by
    rw [hcp, estimateTokens_def, List.nil_append, List.length_replicate]
  have hcall1 : safeGroqCall (fun _ _ => .error "x".data) []
      (chunkPrompt 1 0 (List.replicate 24004 'a')) =
      .error (budgetErrorMsg
        (estimateTokens (([] : Str) ++ chunkPrompt 1 0 (List.replicate 24004 'a')))) := by
    unfold safeGroqCall
    rw [if_pos (by rw [hest]; decide)]
  constructor
  · exact (processChunk_token_retry (fun _ _ => .error "x".data) (fun _ => .error "y".data)
      [] 1 0 (List.replicate 24004 'a') _ hcall1).1 (by rw [hest]; decide)
  · exact (processChunk_token_retry (fun _ _ => .error "Service Token Err".data)
      (fun _ => .error "y".data) [] 1 0 "c".data "Service Token Err".data
      rfl).2.1 (by decide)

/-!
### C3 — closed action enumeration at the `parseIntent` boundary

`parseIntent` performs no validation of the oracle's parsed object: the
`action` field is passed through to the caller as-is (any free-form
string, or absent).  Error paths return `action: 'error'`, which is not
in the enumeration either.  Only the fallback classifier guarantees an
enumeration action — but its results reach the caller only on the
chunked path's per-chunk failures.
-/

lemma safeGroqCall_within (oracle : Oracle) (sys usr : Str)
    (h : estimateTokens (sys ++ usr) ≤ MAX_INPUT_TOKENS_PER_CALL) :
    safeGroqCall oracle sys usr = oracleDispatch oracle sys usr := by
  unfold safeGroqCall
  rw [if_neg (by omega)]

set_option maxRecDepth 9000 in
lemma intentSystemPrompt_none_length : (intentSystemPrompt none).length = 1858 := by
  show (intentSystemPromptA ++ modeContext none ++ intentSystemPromptB).length = 1858
  rw [List.length_append, List.length_append]
  have hA : intentSystemPromptA.length = 861 := by decide
  have hB : intentSystemPromptB.length = 997 := by decide
  have hM : (modeContext none).length = 0 := rfl
  rw [hA, hB, hM]

lemma c3_budget :
    estimateTokens (intentSystemPrompt none ++ "hello".data) ≤ MAX_INPUT_TOKENS_PER_CALL := by
  rw [estimateTokens_def, List.length_append, intentSystemPrompt_none_length]
  decide

/-- On non-empty input within the budget, `parseIntent` is the
single-call pipeline: gateway, then parse, with the outer catch. -/
lemma parseIntent_single_call (oracle : Oracle) (jp : JsonParse) (t : Str) (mode : Option Str)
    (hne : ¬ (t.isEmpty ∨ (jsTrim t).isEmpty))
    (hbudget : estimateTokens (intentSystemPrompt mode ++ t) ≤ MAX_INPUT_TOKENS_PER_CALL) :
    parseIntent oracle jp t mode =
      (match safeGroqCall oracle (intentSystemPrompt mode) t with
       | .error e => parseIntentErrorIntent e
       | .ok content =>
         match jp (cleanJsonResponse (if content.isEmpty then jsonEmptyStr else content)) with
         | .ok parsed => setQueryDefault parsed t
         | .error e => parseIntentErrorIntent e) := by
  simp only [parseIntent]
  rw [if_neg hne, if_pos hbudget]
  cases hsg : safeGroqCall oracle (intentSystemPrompt mode) t with
  | error e => simp only [hsg]
  | ok c =>
    simp only [hsg]
    cases hjp : jp (cleanJsonResponse (if c.isEmpty then jsonEmptyStr else c)) with
    | ok p => simp only [hjp]
    | error e2 => simp only [hjp]

lemma aou_mem (a : Str) (i : Intent) (hi : i.action = some a) (ha : ¬ a = [])
    (hmem : a ∈ actionEnum) : actionOrUnknown i ∈ actionEnum := by
  unfold actionOrUnknown
  simp only [hi]
  rw [if_neg (fun hh => ha (List.isEmpty_iff.mp hh))]
  exact hmem

/-- Every successful result of the fallback classifier carries an
action from the closed enumeration. -/
lemma fallback_action_enum (t : Str) (i : Intent)
    (h : regexFallbackParser t = .ok i) : actionOrUnknown i ∈ actionEnum := by
  unfold regexFallbackParser at h
  by_cases g1 : guardComplete t = true
  · rw [if_pos g1] at h
    cases hcm : completeMatch t with
    | none => simp only [hcm] at h; cases h; exact aou_mem _ _ rfl (by decide) (by decide)
    | some o =>
      cases o with
      | none => simp only [hcm] at h; cases h
      | some g => simp only [hcm] at h; cases h; exact aou_mem _ _ rfl (by decide) (by decide)
  · rw [if_neg g1] at h
    by_cases g2 : guardDelete t = true
    · rw [if_pos g2] at h
      cases hcm : deleteMatch t with
      | none => simp only [hcm] at h; cases h; exact aou_mem _ _ rfl (by decide) (by decide)
      | some o =>
        cases o with
        | none => simp only [hcm] at h; cases h
        | some g => simp only [hcm] at h; cases h; exact aou_mem _ _ rfl (by decide) (by decide)
    · rw [if_neg g2] at h
      by_cases g3 : guardPriority t = true
      · rw [if_pos g3] at h
        cases h; exact aou_mem _ _ rfl (by decide) (by decide)
      · rw [if_neg g3] at h
        by_cases g4 : guardList t = true
        · rw [if_pos g4] at h
          cases h; exact aou_mem _ _ rfl (by decide) (by decide)
        · rw [if_neg g4] at h
          by_cases g5 : guardNote t = true
          · rw [if_pos g5] at h
            cases h; exact aou_mem _ _ rfl (by decide) (by decide)
          · rw [if_neg g5] at h
            by_cases g6 : guardFocus t = true
            · rw [if_pos g6] at h
              cases h; exact aou_mem _ _ rfl (by decide) (by decide)
            · rw [if_neg g6] at h
              by_cases g7 : guardUrgent t = true
              · rw [if_pos g7] at h
                cases h; exact aou_mem _ _ rfl (by decide) (by decide)
              · rw [if_neg g7] at h
                by_cases g8 : mathAnchoredTest t = true
                · rw [if_pos g8] at h
                  cases hms : mathScan t with
                  | none => simp only [hms] at h; cases h; exact aou_mem _ _ rfl (by decide) (by decide)
                  | some x =>
                    obtain ⟨a, opc, b⟩ := x
                    simp only [hms] at h; cases h; exact aou_mem _ _ rfl (by decide) (by decide)
                · rw [if_neg g8] at h
                  by_cases g9 : guardGreeting t = true
                  · rw [if_pos g9] at h
                    by_cases g10 : containsCI "help".data t = true
                    · rw [if_pos g10] at h
                      cases h; exact aou_mem _ _ rfl (by decide) (by decide)
                    · rw [if_neg g10] at h
                      cases h; exact aou_mem _ _ rfl (by decide) (by decide)
                  · rw [if_neg g9] at h
                    by_cases hm : ((scanNumbered t).isEmpty : Prop)
                    · rw [if_pos hm] at h
                      cases h; exact aou_mem _ _ rfl (by decide) (by decide)
                    · rw [if_neg hm] at h
                      cases h; exact aou_mem _ _ rfl (by decide) (by decide)

/-- C3 counterexample: a well-formed oracle reply `\x7b\x7d` yields an
intent with *no* action at all; a reply carrying a free-form action
string passes it through unvalidated; and a transport failure yields the
action `error` — neither `foo` nor `error` is in the enumeration. -/
theorem parseIntent_unvalidated_counterexample :
    (parseIntent (fun _ _ => .ok jsonEmptyStr)
       (fun s => if s = jsonEmptyStr then .ok {} else .error "Unexpected token".data)
       "hello".data none).action = none ∧
    (parseIntent (fun _ _ => .ok "\x7b\"action\":\"foo\"\x7d".data)
       (fun s => if s = "\x7b\"action\":\"foo\"\x7d".data then .ok { action := some "foo".data }
                 else .error "Unexpected token".data)
       "hello".data none).action = some "foo".data ∧
    "foo".data ∉ actionEnum ∧
    (parseIntent (fun _ _ => .error "down".data) (fun _ => .error "x".data)
       "hello".data none).action = some "error".data ∧
    "error".data ∉ actionEnum := by
  refine ⟨?_, ?_, by decide, ?_, by decide⟩
  · rw [parseIntent_single_call _ _ _ _ (by decide) c3_budget,
        safeGroqCall_within _ _ _ c3_budget,
        show oracleDispatch (fun _ _ => .ok jsonEmptyStr) (intentSystemPrompt none) "hello".data
          = .ok jsonEmptyStr from rfl]
    decide
  · rw [parseIntent_single_call _ _ _ _ (by decide) c3_budget,
        safeGroqCall_within _ _ _ c3_budget,
        show oracleDispatch (fun _ _ => .ok "\x7b\"action\":\"foo\"\x7d".data)
          (intentSystemPrompt none) "hello".data = .ok "\x7b\"action\":\"foo\"\x7d".data from rfl]
    decide
  · rw [parseIntent_single_call _ _ _ _ (by decide) c3_budget,
        safeGroqCall_within _ _ _ c3_budget,
        show oracleDispatch (fun _ _ => .error "down".data) (intentSystemPrompt none) "hello".data
          = .error "down".data from rfl]
    decide

/-- C3 (amended): on empty input `parseIntent` returns the
`action: 'error'` intent; on a successful oracle reply the parsed
object is returned with only a query default applied — its `action` is
passed through unvalidated; the fallback classifier alone always
produces an action from the closed enumeration. -/
theorem parseIntent_action_validation (oracle : Oracle) (jp : JsonParse)
    (t : Str) (mode : Option Str) (content : Str) (parsed : Intent) :
    ((t.isEmpty ∨ (jsTrim t).isEmpty) → parseIntent oracle jp t mode = emptyInputIntent) ∧
    (¬ (t.isEmpty ∨ (jsTrim t).isEmpty) →
      estimateTokens (intentSystemPrompt mode ++ t) ≤ MAX_INPUT_TOKENS_PER_CALL →
      oracle (intentSystemPrompt mode) t = .ok content →
      content ≠ [] →
      jp (cleanJsonResponse content) = .ok parsed →
      parseIntent oracle jp t mode = setQueryDefault parsed t) ∧
    (∀ i : Intent, regexFallbackParser t = .ok i → actionOrUnknown i ∈ actionEnum) := by
  refine ⟨?_, ?_, fun i h => fallback_action_enum t i h⟩
  · intro h
    unfold parseIntent
    rw [if_pos h]
  · intro hne hbudget horacle hcne hjp
    have hcemp : content.isEmpty = false := by
      cases content with
      | nil => exact absurd rfl hcne
      | cons c rest => rfl
    rw [parseIntent_single_call oracle jp t mode hne hbudget]
    have hsafe : safeGroqCall oracle (intentSystemPrompt mode) t = .ok content :=
      (safeGroqCall_within oracle _ t hbudget).trans (by unfold oracleDispatch; rw [horacle])
    simp only [hsafe, hcemp, Bool.false_eq_true, if_false, hjp]

/-- Witness for C3's amended theorem: empty input yields the error
intent; a concrete oracle reply with a free-form action is passed
through to the caller. -/
theorem parseIntent_action_validation_witness :
    parseIntent (fun _ _ => .ok "\x7b\"action\":\"foo\"\x7d".data)
      (fun s => if s = "\x7b\"action\":\"foo\"\x7d".data then .ok { action := some "foo".data }
                else .error "Unexpected token".data) [] none = emptyInputIntent ∧
    parseIntent (fun _ _ => .ok "\x7b\"action\":\"foo\"\x7d".data)
      (fun s => if s = "\x7b\"action\":\"foo\"\x7d".data then .ok { action := some "foo".data }
                else .error "Unexpected token".data) "hello".data none =
      setQueryDefault { action := some "foo".data } "hello".data := by
  constructor
  · exact (parseIntent_action_validation _ _ [] none [] { action := some "foo".data }).1
      (by decide)
  · exact (parseIntent_action_validation _ _ "hello".data none
      "\x7b\"action\":\"foo\"\x7d".data { action := some "foo".data }).2.1
      (by decide) c3_budget rfl (by decide) (by rfl)

end FlowState
